import Mathlib

/-!
# Verification of the Kira tree-walking interpreter

A shallow embedding of the Kira interpreter core (lexer, Pratt parser,
evaluator, chained environments) translated from the Python source
(`src/tokens.py`, `src/lexer.py`, `src/parser.py`, `src/ast_nodes.py`,
`src/environment.py`, `src/builtins.py`, `src/evaluator.py`, `kira.py`).

Modelling conventions:
* Python's machine integers are arbitrary precision, modelled as `Int`;
  Python floats are modelled as exact rationals `ℚ` (IEEE-754 rounding is
  not modelled; no claim below depends on float rounding or float printing).
* Python exceptions are modelled as explicit outcomes.  `KiraRuntimeError`
  is `KErr.kira`; every other host exception (the built-in `RuntimeError`
  raised by `Environment`, `TypeError` raised by mixed-type operators, ...)
  is `KErr.host`.  The non-local exits `ReturnValue`, `BreakSignal`,
  `ContinueSignal` are the outcomes `ret`/`brk`/`cont`.
* Unbounded recursion (the comment recursion in the lexer, the Pratt
  recursion in the parser, the evaluation recursion) is made total with an
  explicit fuel parameter; running out of fuel produces a distinguished
  marker that corresponds to no Python behaviour.  For the lexer the fuel
  is computed from the source length and is proved sufficient.
* Environments are mutable and shared (closures); they live in an explicit
  heap `EvalSt.envs`, indexed by their id.  `Environment.parent` is an id.
* Mutation of array/dict *objects* (index assignment, the mutating
  built-ins) needs reference identity for containers, which is outside this
  value model; no claim below evaluates an index assignment or calls a
  built-in, and both are mapped to the distinguished `KErr.unmodeled`.
-/

set_option maxRecDepth 40000

namespace Kira

/-- Token kinds, from the `TokenType` enum in `tokens.py`. -/
inductive TokenType where
  | INTEGER | FLOAT | STRING | TRUE | FALSE | NULL
  | IDENTIFIER | LET | CONST | FN | RETURN | IF | ELSE | WHILE | FOR | IN
  | BREAK | CONTINUE
  | PLUS | MINUS | ASTERISK | SLASH | PERCENT | POWER
  | EQ | NOT_EQ | LT | GT | LT_EQ | GT_EQ
  | AND | OR | NOT
  | ASSIGN | PLUS_ASSIGN | MINUS_ASSIGN
  | LPAREN | RPAREN | LBRACE | RBRACE | LBRACKET | RBRACKET
  | COMMA | COLON | SEMICOLON | DOT | ARROW
  | NEWLINE | EOF | ILLEGAL
  deriving DecidableEq

/-- The pre-parsed `value` field of a token (`Token.value` in `tokens.py`):
`None`, a Python int, a Python float (exact rational here), a bool, or the
decoded text of a string literal. -/
inductive TokenValue where
  | none
  | int (n : Int)
  | float (q : ℚ)
  | bool (b : Bool)
  | str (s : String)
  deriving DecidableEq

/-- A token, from the `Token` dataclass in `tokens.py`. -/
structure Token where
  type : TokenType
  literal : String
  value : TokenValue
  line : Nat
  column : Nat
  deriving DecidableEq

/-- The keyword table `KEYWORDS` of `tokens.py`. -/
def KEYWORDS : List (String × TokenType) :=
  [("let", .LET), ("const", .CONST), ("fn", .FN), ("return", .RETURN),
   ("if", .IF), ("else", .ELSE), ("while", .WHILE), ("for", .FOR),
   ("in", .IN), ("break", .BREAK), ("continue", .CONTINUE),
   ("true", .TRUE), ("false", .FALSE), ("null", .NULL),
   ("and", .AND), ("or", .OR), ("not", .NOT)]

/-- `lookup_identifier` of `tokens.py`. -/
def lookupIdentifier (ident : String) : TokenType :=
  match (KEYWORDS.find? (fun p => p.1 == ident)) with
  | some p => p.2
  | none => .IDENTIFIER

/-- `LexerError` of `lexer.py`: message and 1-based position. -/
structure LexError where
  message : String
  line : Nat
  column : Nat
  deriving DecidableEq

/-- The mutable scanning state of `Lexer` (`pos`, `line`, `column`); the
source string is passed separately as a fixed `List Char`. -/
structure LexSt where
  pos : Nat
  line : Nat
  column : Nat
  deriving DecidableEq

/-- `Lexer.current_char`: the character at `pos`, or none at the end. -/
def currentChar (src : List Char) (st : LexSt) : Option Char :=
  src.get? st.pos

/-- `Lexer.advance`: consume one character, tracking line/column.  When
`current_char` is `None`, Python still increments `pos` and `column`. -/
def lexAdvance (src : List Char) (st : LexSt) : LexSt :=
  match currentChar src st with
  | some c =>
      if c = '\n' then ⟨st.pos + 1, st.line + 1, 1⟩
      else ⟨st.pos + 1, st.line, st.column + 1⟩
  | none => ⟨st.pos + 1, st.line, st.column + 1⟩

/-- Loop body of `Lexer.skip_whitespace` (spaces, tabs, carriage returns;
not newlines).  The counter is the number of characters left, so the `0`
case coincides with the loop's exhaustion of the input. -/
def skipWsGo (src : List Char) : Nat → LexSt → LexSt
  | 0, st => st
  | n + 1, st =>
      match currentChar src st with
      | some c =>
          if c = ' ' ∨ c = '\t' ∨ c = '\r' then skipWsGo src n (lexAdvance src st)
          else st
      | none => st

/-- `Lexer.skip_whitespace`. -/
def skipWhitespace (src : List Char) (st : LexSt) : LexSt :=
  skipWsGo src (src.length - st.pos) st

/-- Loop body of `Lexer.skip_comment` (advance to end of line). -/
def skipCommentGo (src : List Char) : Nat → LexSt → LexSt
  | 0, st => st
  | n + 1, st =>
      match currentChar src st with
      | some c =>
          if c ≠ '\n' then skipCommentGo src n (lexAdvance src st)
          else st
      | none => st

/-- `Lexer.skip_comment`. -/
def skipComment (src : List Char) (st : LexSt) : LexSt :=
  skipCommentGo src (src.length - st.pos) st

/-- `Lexer.make_token`: position points at the start of the literal
(`column - len(literal)`; truncated Nat subtraction only differs from
Python on the discarded NEWLINE tokens, whose literal `"\n"` is written
out as two characters there as well). -/
def makeToken (st : LexSt) (type : TokenType) (literal : String) : Token :=
  ⟨type, literal, .none, st.line, st.column - literal.length⟩

/-- The post-loop tail of `Lexer.read_string`: consume the closing quote or
report `Unterminated string literal` at the opening quote's position. -/
def readStrEnd (src : List Char) (quote : Char) (startLine startCol : Nat)
    (st : LexSt) (acc : List Char) : Except LexError (Token × LexSt) :=
  match currentChar src st with
  | some c =>
      if c = quote then
        let value := String.mk acc.reverse
        .ok (⟨.STRING, value, .str value, startLine, startCol⟩, lexAdvance src st)
      else .error ⟨"Unterminated string literal", startLine, startCol⟩
  | none => .error ⟨"Unterminated string literal", startLine, startCol⟩

/-- Loop body of `Lexer.read_string`: escape sequences `\n`, `\t`, `\r`,
`\\` and the opening quote are decoded, any other escape passes the
backslash and the following character through, and a literal newline is an
error.  `acc` is reversed.  The counter mirrors the remaining characters;
when it reaches 0 the input is exhausted and the post-loop tail applies. -/
def readStrGo (src : List Char) (quote : Char) (startLine startCol : Nat) :
    Nat → LexSt → List Char → Except LexError (Token × LexSt)
  | 0, st, acc => readStrEnd src quote startLine startCol st acc
  | n + 1, st, acc =>
      match currentChar src st with
      | some c =>
          if c = quote then readStrEnd src quote startLine startCol st acc
          else if c = '\\' then
            let st1 := lexAdvance src st
            let acc' :=
              match currentChar src st1 with
              | some 'n' => '\n' :: acc
              | some 't' => '\t' :: acc
              | some 'r' => '\r' :: acc
              | some '\\' => '\\' :: acc
              | some e => if e = quote then quote :: acc else e :: '\\' :: acc
              | none => '\\' :: acc
            readStrGo src quote startLine startCol n (lexAdvance src st1) acc'
          else if c = '\n' then
            .error ⟨"Unterminated string literal", startLine, startCol⟩
          else readStrGo src quote startLine startCol n (lexAdvance src st) (c :: acc)
      | none => readStrEnd src quote startLine startCol st acc

/-- `Lexer.read_string`: consume the opening quote, then scan. -/
def readString (src : List Char) (quote : Char) (st : LexSt) :
    Except LexError (Token × LexSt) :=
  readStrGo src quote st.line st.column (src.length - st.pos) (lexAdvance src st) []

/-- Digit-string to integer (`int(literal)` for a digit literal). -/
def decodeDigits (ds : List Char) : Int :=
  ds.foldl (fun acc c => acc * 10 + (c.toNat - '0'.toNat : Nat)) 0

/-- `float(literal)` for `intpart.fracpart`, as an exact rational. -/
def decodeFloat (intPart fracPart : List Char) : ℚ :=
  (decodeDigits intPart : ℚ) + (decodeDigits fracPart : ℚ) / ((10 : ℚ) ^ fracPart.length)

/-- Split a scanned numeric literal at its dot. -/
def splitAtDot (ds : List Char) : List Char × List Char :=
  ((ds.takeWhile (fun c => c ≠ '.')), (ds.dropWhile (fun c => c ≠ '.')).drop 1)

/-- Loop body of `Lexer.read_number`: digits, then optionally one dot that
must be followed by a digit.  Returns the scanned characters (reversed),
whether a dot was consumed, and the state after the literal. -/
def readNumGo (src : List Char) : Nat → LexSt → List Char → Bool →
    List Char × Bool × LexSt
  | 0, st, acc, hasDot => (acc, hasDot, st)
  | n + 1, st, acc, hasDot =>
      match currentChar src st with
      | some c =>
          if c.isDigit ∨ c = '.' then
            if c = '.' then
              if hasDot then (acc, hasDot, st)
              else
                match src.get? (st.pos + 1) with
                | some d =>
                    if d.isDigit then readNumGo src n (lexAdvance src st) (c :: acc) true
                    else (acc, hasDot, st)
                | none => (acc, hasDot, st)
            else readNumGo src n (lexAdvance src st) (c :: acc) hasDot
          else (acc, hasDot, st)
      | none => (acc, hasDot, st)

/-- `Lexer.read_number`. -/
def readNumber (src : List Char) (st : LexSt) : Token × LexSt :=
  let startCol := st.column
  let r := readNumGo src (src.length - st.pos) st [] false
  let literal := r.1.reverse
  let st' := r.2.2
  if r.2.1 then
    let parts := splitAtDot literal
    (⟨.FLOAT, String.mk literal, .float (decodeFloat parts.1 parts.2), st'.line, startCol⟩, st')
  else
    (⟨.INTEGER, String.mk literal, .int (decodeDigits literal), st'.line, startCol⟩, st')

/-- Loop body of `Lexer.read_identifier` (alphanumerics and underscores;
Python's Unicode-aware `isalnum` is modelled by `Char.isAlphanum`, which
agrees on ASCII). -/
def readIdentGo (src : List Char) : Nat → LexSt → List Char → List Char × LexSt
  | 0, st, acc => (acc, st)
  | n + 1, st, acc =>
      match currentChar src st with
      | some c =>
          if c.isAlphanum ∨ c = '_' then readIdentGo src n (lexAdvance src st) (c :: acc)
          else (acc, st)
      | none => (acc, st)

/-- `Lexer.read_identifier`: scan, reclassify via the keyword table, and
pre-set the boolean value for `true`/`false`. -/
def readIdentifier (src : List Char) (st : LexSt) : Token × LexSt :=
  let startCol := st.column
  let r := readIdentGo src (src.length - st.pos) st []
  let literal := String.mk r.1.reverse
  let tokType := lookupIdentifier literal
  let value : TokenValue :=
    if tokType = .TRUE then .bool true
    else if tokType = .FALSE then .bool false
    else .none
  (⟨tokType, literal, value, r.2.line, startCol⟩, r.2)

/-- The single-character operator and delimiter table of `Lexer.next_token`. -/
def singleCharToken (c : Char) : Option TokenType :=
  if c = '+' then some .PLUS else if c = '-' then some .MINUS
  else if c = '*' then some .ASTERISK else if c = '/' then some .SLASH
  else if c = '%' then some .PERCENT else if c = '=' then some .ASSIGN
  else if c = '<' then some .LT else if c = '>' then some .GT
  else if c = '(' then some .LPAREN else if c = ')' then some .RPAREN
  else if c = '{' then some .LBRACE else if c = '}' then some .RBRACE
  else if c = '[' then some .LBRACKET else if c = ']' then some .RBRACKET
  else if c = ',' then some .COMMA else if c = ':' then some .COLON
  else if c = ';' then some .SEMICOLON else if c = '.' then some .DOT
  else none

/-- `Lexer.next_token`.  The counter bounds the comment recursion
(`skip_comment` always consumes the `#`, so the remaining length shrinks);
the `0` case is only reachable past the end of the input, where
`next_token` returns EOF as well. -/
def nextTokenGo (src : List Char) : Nat → LexSt → Except LexError (Token × LexSt)
  | 0, st => .ok (makeToken (skipWhitespace src st) .EOF "", skipWhitespace src st)
  | n + 1, st =>
      let st := skipWhitespace src st
      match currentChar src st with
      | none => .ok (makeToken st .EOF "", st)
      | some c =>
          if c = '#' then nextTokenGo src n (skipComment src st)
          else if c = '\n' then
            let st' := lexAdvance src st
            .ok (makeToken st' .NEWLINE "\\n", st')
          else if c = '"' ∨ c = '\'' then readString src c st
          else if c.isDigit then .ok (readNumber src st)
          else if c.isAlpha ∨ c = '_' then .ok (readIdentifier src st)
          else if c = '=' ∧ src.get? (st.pos + 1) = some '=' then
            let st' := lexAdvance src (lexAdvance src st)
            .ok (makeToken st' .EQ "==", st')
          else if c = '!' ∧ src.get? (st.pos + 1) = some '=' then
            let st' := lexAdvance src (lexAdvance src st)
            .ok (makeToken st' .NOT_EQ "!=", st')
          else if c = '<' ∧ src.get? (st.pos + 1) = some '=' then
            let st' := lexAdvance src (lexAdvance src st)
            .ok (makeToken st' .LT_EQ "<=", st')
          else if c = '>' ∧ src.get? (st.pos + 1) = some '=' then
            let st' := lexAdvance src (lexAdvance src st)
            .ok (makeToken st' .GT_EQ ">=", st')
          else if c = '*' ∧ src.get? (st.pos + 1) = some '*' then
            let st' := lexAdvance src (lexAdvance src st)
            .ok (makeToken st' .POWER "**", st')
          else if c = '+' ∧ src.get? (st.pos + 1) = some '=' then
            let st' := lexAdvance src (lexAdvance src st)
            .ok (makeToken st' .PLUS_ASSIGN "+=", st')
          else if c = '-' ∧ src.get? (st.pos + 1) = some '=' then
            let st' := lexAdvance src (lexAdvance src st)
            .ok (makeToken st' .MINUS_ASSIGN "-=", st')
          else if c = '-' ∧ src.get? (st.pos + 1) = some '>' then
            let st' := lexAdvance src (lexAdvance src st)
            .ok (makeToken st' .ARROW "->", st')
          else
            match singleCharToken c with
            | some tt =>
                let st' := lexAdvance src st
                .ok (makeToken st' tt (String.mk [c]), st')
            | none =>
                let st' := lexAdvance src st
                .error ⟨"Unexpected character: " ++ String.mk [c], st'.line, st'.column - 1⟩

/-- `Lexer.next_token`, with the comment-recursion counter instantiated. -/
def nextToken (src : List Char) (st : LexSt) : Except LexError (Token × LexSt) :=
  nextTokenGo src (src.length + 1 - st.pos) st

/-- Loop body of `Lexer.tokenize`: collect tokens, dropping NEWLINE, until
EOF (which is appended).  The `0` case is a fuel artifact;
`tokenize_spec` below shows it is never reached. -/
def tokenizeGo (src : List Char) : Nat → LexSt → List Token →
    Except LexError (List Token)
  | 0, _, acc => .ok acc.reverse
  | n + 1, st, acc =>
      match nextToken src st with
      | .error e => .error e
      | .ok (tok, st') =>
          let acc' := if tok.type = .NEWLINE then acc else tok :: acc
          if tok.type = .EOF then .ok acc'.reverse
          else tokenizeGo src n st' acc'

/-- `Lexer.tokenize`, starting at position 0, line 1, column 1.  The fuel
`length + 2` is proved sufficient in `tokenize_spec`. -/
def tokenize (src : List Char) : Except LexError (List Token) :=
  tokenizeGo src (src.length + 2) ⟨0, 1, 1⟩ []

/-- AST nodes, from `ast_nodes.py`.  The Python classes are dynamically
typed (the evaluator dispatches on the class name), so expressions and
statements live in one inductive; `Program` is a bare statement list.  The
`ComparisonOp` class of `ast_nodes.py` is never produced by the parser and
is omitted. -/
inductive Node where
  | integerLit (value : Int)
  | floatLit (value : ℚ)
  | stringLit (value : String)
  | booleanLit (value : Bool)
  | nullLit
  | arrayLit (elements : List Node)
  | dictLit (pairs : List (Node × Node))
  | identifier (name : String)
  | indexExpr (object index : Node)
  | binaryOp (operator : String) (left right : Node)
  | unaryOp (operator : String) (operand : Node)
  | ifExpr (condition consequence : Node) (alternative : Option Node)
  | functionLit (parameters : List String) (body : Node) (name : Option String)
  | callExpr (function : Node) (arguments : List Node)
  | blockStmt (statements : List Node)
  | letStmt (name : String) (value : Node)
  | constStmt (name : String) (value : Node)
  | assignStmt (name operator : String) (value : Node)
  | indexAssignStmt (object index value : Node)
  | exprStmt (expression : Node)
  | returnStmt (value : Option Node)
  | whileStmt (condition body : Node)
  | forStmt (var : String) (iterable body : Node)
  | breakStmt
  | continueStmt
  | functionStmt (name : String) (parameters : List String) (body : Node)

/-- `ParserError` of `parser.py` (message and offending token), plus a
fuel-exhaustion marker that corresponds to no Python behaviour. -/
inductive ParseError where
  | err (message : String) (token : Token)
  | fuelOut

/-- The `Precedence` levels of `parser.py`. -/
def precLOWEST : Nat := 0
def precOR : Nat := 1
def precAND : Nat := 2
def precNOT : Nat := 3
def precEQUALS : Nat := 4
def precCOMPARE : Nat := 5
def precSUM : Nat := 6
def precPRODUCT : Nat := 7
def precPOWER : Nat := 8
def precPREFIX : Nat := 9
def precCALL : Nat := 10
def precINDEX : Nat := 11

/-- The `PRECEDENCES` table of `parser.py` (`.get` default is LOWEST). -/
def precedenceOf (tt : TokenType) : Nat :=
  match tt with
  | .OR => precOR
  | .AND => precAND
  | .EQ => precEQUALS
  | .NOT_EQ => precEQUALS
  | .LT => precCOMPARE
  | .GT => precCOMPARE
  | .LT_EQ => precCOMPARE
  | .GT_EQ => precCOMPARE
  | .PLUS => precSUM
  | .MINUS => precSUM
  | .ASTERISK => precPRODUCT
  | .SLASH => precPRODUCT
  | .PERCENT => precPRODUCT
  | .POWER => precPOWER
  | .LPAREN => precCALL
  | .LBRACKET => precINDEX
  | _ => precLOWEST

/-- Token kinds with a registered prefix parse function. -/
def hasPrefixFn (tt : TokenType) : Bool :=
  match tt with
  | .IDENTIFIER | .INTEGER | .FLOAT | .STRING | .TRUE | .FALSE | .NULL
  | .MINUS | .NOT | .LPAREN | .LBRACKET | .LBRACE | .IF | .FN => true
  | _ => false

/-- Token kinds with a registered infix parse function. -/
def hasInfixFn (tt : TokenType) : Bool :=
  match tt with
  | .PLUS | .MINUS | .ASTERISK | .SLASH | .PERCENT | .POWER
  | .EQ | .NOT_EQ | .LT | .GT | .LT_EQ | .GT_EQ | .AND | .OR
  | .LPAREN | .LBRACKET => true
  | _ => false

/-- `Parser.current_token`: past the end, Python returns `tokens[-1]`
(the EOF token of any `tokenize` output; the fallback token is
unreachable for non-empty token lists). -/
def curTok (toks : List Token) (pos : Nat) : Token :=
  match toks.get? pos with
  | some t => t
  | none => toks.getLastD ⟨.EOF, "", .none, 1, 1⟩

/-- `Parser.peek_token`. -/
def peekTok (toks : List Token) (pos : Nat) : Token :=
  match toks.get? (pos + 1) with
  | some t => t
  | none => toks.getLastD ⟨.EOF, "", .none, 1, 1⟩

/-- `Parser.expect`: advance past a token of the given kind or fail. -/
def expectTok (toks : List Token) (pos : Nat) (tt : TokenType) :
    Except ParseError (Token × Nat) :=
  let t := curTok toks pos
  if t.type = tt then .ok (t, pos + 1)
  else .error (.err ("Expected token kind mismatch") t)

/-- The work items of the parser: each constructor is a method of `Parser`
(or one of its `while` loops, with the accumulator made explicit). -/
inductive PTask where
  | program (acc : List Node)
  | statement
  | block
  | blockLoop (acc : List Node)
  | expression (prec : Nat)
  | exprLoop (prec : Nat) (left : Node)
  | exprList (endTok : TokenType)
  | exprListLoop (endTok : TokenType) (acc : List Node)
  | dictPairsLoop (acc : List (Node × Node))
  | params
  | paramsLoop (acc : List String)

/-- The result of a parser work item. -/
inductive PRes where
  | expr (e : Node)
  | stmt (s : Option Node)
  | stmts (ss : List Node)
  | exprs (es : List Node)
  | pairs (ps : List (Node × Node))
  | names (ns : List String)

/-- The parser, from `parser.py`, as one fuel-indexed function over work
items; `pos` is the token cursor `Parser.pos`.  Every mutual call of the
Python methods decrements the fuel once. -/
def parseA (toks : List Token) : Nat → PTask → Nat → Except ParseError (PRes × Nat)
  | 0, _, _ => .error .fuelOut
  | fuel + 1, task, pos =>
    match task with
    | .program acc =>
        -- parse_program: loop until EOF collecting statements
        if (curTok toks pos).type = .EOF then .ok (.stmts acc.reverse, pos)
        else
          match parseA toks fuel .statement pos with
          | .error e => .error e
          | .ok (.stmt s, pos') =>
              parseA toks fuel (.program (match s with | some st => st :: acc | none => acc)) pos'
          | .ok _ => .error .fuelOut
    | .statement =>
        -- parse_statement: skip semicolons (loop), EOF gives None, dispatch
        let t := curTok toks pos
        if t.type = .SEMICOLON then parseA toks fuel .statement (pos + 1)
        else if t.type = .EOF then .ok (.stmt none, pos)
        else if t.type = .LET then
          -- parse_let_statement
          match expectTok toks (pos + 1) .IDENTIFIER with
          | .error e => .error e
          | .ok (nameTok, p1) =>
              match expectTok toks p1 .ASSIGN with
              | .error e => .error e
              | .ok (_, p2) =>
                  match parseA toks fuel (.expression precLOWEST) p2 with
                  | .error e => .error e
                  | .ok (.expr v, p3) => .ok (.stmt (some (.letStmt nameTok.literal v)), p3)
                  | .ok _ => .error .fuelOut
        else if t.type = .CONST then
          -- parse_const_statement
          match expectTok toks (pos + 1) .IDENTIFIER with
          | .error e => .error e
          | .ok (nameTok, p1) =>
              match expectTok toks p1 .ASSIGN with
              | .error e => .error e
              | .ok (_, p2) =>
                  match parseA toks fuel (.expression precLOWEST) p2 with
                  | .error e => .error e
                  | .ok (.expr v, p3) => .ok (.stmt (some (.constStmt nameTok.literal v)), p3)
                  | .ok _ => .error .fuelOut
        else if t.type = .RETURN then
          -- parse_return_statement
          let t1 := curTok toks (pos + 1)
          if t1.type = .RBRACE ∨ t1.type = .EOF ∨ t1.type = .SEMICOLON then
            .ok (.stmt (some (.returnStmt none)), pos + 1)
          else
            match parseA toks fuel (.expression precLOWEST) (pos + 1) with
            | .error e => .error e
            | .ok (.expr v, p1) => .ok (.stmt (some (.returnStmt (some v))), p1)
            | .ok _ => .error .fuelOut
        else if t.type = .WHILE then
          -- parse_while_statement
          match parseA toks fuel (.expression precLOWEST) (pos + 1) with
          | .error e => .error e
          | .ok (.expr cond, p1) =>
              match parseA toks fuel .block p1 with
              | .error e => .error e
              | .ok (.stmts body, p2) => .ok (.stmt (some (.whileStmt cond (.blockStmt body))), p2)
              | .ok _ => .error .fuelOut
          | .ok _ => .error .fuelOut
        else if t.type = .FOR then
          -- parse_for_statement
          match expectTok toks (pos + 1) .IDENTIFIER with
          | .error e => .error e
          | .ok (varTok, p1) =>
              match expectTok toks p1 .IN with
              | .error e => .error e
              | .ok (_, p2) =>
                  match parseA toks fuel (.expression precLOWEST) p2 with
                  | .error e => .error e
                  | .ok (.expr iter, p3) =>
                      match parseA toks fuel .block p3 with
                      | .error e => .error e
                      | .ok (.stmts body, p4) =>
                          .ok (.stmt (some (.forStmt varTok.literal iter (.blockStmt body))), p4)
                      | .ok _ => .error .fuelOut
                  | .ok _ => .error .fuelOut
        else if t.type = .BREAK then .ok (.stmt (some .breakStmt), pos + 1)
        else if t.type = .CONTINUE then .ok (.stmt (some .continueStmt), pos + 1)
        else if t.type = .FN ∧ (peekTok toks pos).type = .IDENTIFIER then
          -- parse_function_statement
          match expectTok toks (pos + 1) .IDENTIFIER with
          | .error e => .error e
          | .ok (nameTok, p1) =>
              match parseA toks fuel .params p1 with
              | .error e => .error e
              | .ok (.names ps, p2) =>
                  match parseA toks fuel .block p2 with
                  | .error e => .error e
                  | .ok (.stmts body, p3) =>
                      .ok (.stmt (some (.functionStmt nameTok.literal ps (.blockStmt body))), p3)
                  | .ok _ => .error .fuelOut
              | .ok _ => .error .fuelOut
        else
          -- parse_expression_or_assignment_statement
          match parseA toks fuel (.expression precLOWEST) pos with
          | .error e => .error e
          | .ok (.expr e, p1) =>
              let t1 := curTok toks p1
              if t1.type = .ASSIGN ∨ t1.type = .PLUS_ASSIGN ∨ t1.type = .MINUS_ASSIGN then
                match parseA toks fuel (.expression precLOWEST) (p1 + 1) with
                | .error er => .error er
                | .ok (.expr v, p2) =>
                    match e with
                    | .identifier nm => .ok (.stmt (some (.assignStmt nm t1.literal v)), p2)
                    | .indexExpr o i => .ok (.stmt (some (.indexAssignStmt o i v)), p2)
                    | _ => .error (.err "Invalid assignment target" (curTok toks p2))
                | .ok _ => .error .fuelOut
              else .ok (.stmt (some (.exprStmt e)), p1)
          | .ok _ => .error .fuelOut
    | .block =>
        -- parse_block_statement: expect '{', loop, expect '}'
        match expectTok toks pos .LBRACE with
        | .error e => .error e
        | .ok (_, p1) => parseA toks fuel (.blockLoop []) p1
    | .blockLoop acc =>
        let t := curTok toks pos
        if t.type = .RBRACE ∨ t.type = .EOF then
          match expectTok toks pos .RBRACE with
          | .error e => .error e
          | .ok (_, p1) => .ok (.stmts acc.reverse, p1)
        else
          match parseA toks fuel .statement pos with
          | .error e => .error e
          | .ok (.stmt s, p1) =>
              parseA toks fuel (.blockLoop (match s with | some st => st :: acc | none => acc)) p1
          | .ok _ => .error .fuelOut
    | .expression prec =>
        -- parse_expression: prefix dispatch, then the infix loop
        let t := curTok toks pos
        match t.type with
        | .IDENTIFIER => parseA toks fuel (.exprLoop prec (.identifier t.literal)) (pos + 1)
        | .INTEGER =>
            let n := match t.value with | .int n => n | _ => 0
            parseA toks fuel (.exprLoop prec (.integerLit n)) (pos + 1)
        | .FLOAT =>
            let q := match t.value with | .float q => q | _ => 0
            parseA toks fuel (.exprLoop prec (.floatLit q)) (pos + 1)
        | .STRING =>
            let s := match t.value with | .str s => s | _ => ""
            parseA toks fuel (.exprLoop prec (.stringLit s)) (pos + 1)
        | .TRUE => parseA toks fuel (.exprLoop prec (.booleanLit true)) (pos + 1)
        | .FALSE => parseA toks fuel (.exprLoop prec (.booleanLit false)) (pos + 1)
        | .NULL => parseA toks fuel (.exprLoop prec .nullLit) (pos + 1)
        | .MINUS =>
            -- parse_prefix_expression
            match parseA toks fuel (.expression precPREFIX) (pos + 1) with
            | .error e => .error e
            | .ok (.expr operand, p1) =>
                parseA toks fuel (.exprLoop prec (.unaryOp t.literal operand)) p1
            | .ok _ => .error .fuelOut
        | .NOT =>
            match parseA toks fuel (.expression precPREFIX) (pos + 1) with
            | .error e => .error e
            | .ok (.expr operand, p1) =>
                parseA toks fuel (.exprLoop prec (.unaryOp t.literal operand)) p1
            | .ok _ => .error .fuelOut
        | .LPAREN =>
            -- parse_grouped_expression
            match parseA toks fuel (.expression precLOWEST) (pos + 1) with
            | .error e => .error e
            | .ok (.expr e, p1) =>
                match expectTok toks p1 .RPAREN with
                | .error er => .error er
                | .ok (_, p2) => parseA toks fuel (.exprLoop prec e) p2
            | .ok _ => .error .fuelOut
        | .LBRACKET =>
            -- parse_array_literal
            match parseA toks fuel (.exprList .RBRACKET) (pos + 1) with
            | .error e => .error e
            | .ok (.exprs es, p1) => parseA toks fuel (.exprLoop prec (.arrayLit es)) p1
            | .ok _ => .error .fuelOut
        | .LBRACE =>
            -- parse_dict_or_block
            if (curTok toks (pos + 1)).type = .RBRACE then
              parseA toks fuel (.exprLoop prec (.dictLit [])) (pos + 2)
            else
              match parseA toks fuel (.expression precLOWEST) (pos + 1) with
              | .error e => .error e
              | .ok (.expr k, p1) =>
                  if (curTok toks p1).type = .COLON then
                    match parseA toks fuel (.expression precLOWEST) (p1 + 1) with
                    | .error er => .error er
                    | .ok (.expr v, p2) =>
                        match parseA toks fuel (.dictPairsLoop [(k, v)]) p2 with
                        | .error er => .error er
                        | .ok (.pairs ps, p3) =>
                            parseA toks fuel (.exprLoop prec (.dictLit ps)) p3
                        | .ok _ => .error .fuelOut
                    | .ok _ => .error .fuelOut
                  else .error (.err "Expected colon in dictionary literal" (curTok toks p1))
              | .ok _ => .error .fuelOut
        | .IF =>
            -- parse_if_expression
            match parseA toks fuel (.expression precLOWEST) (pos + 1) with
            | .error e => .error e
            | .ok (.expr cond, p1) =>
                match parseA toks fuel .block p1 with
                | .error er => .error er
                | .ok (.stmts cons, p2) =>
                    if (curTok toks p2).type = .ELSE then
                      match parseA toks fuel .block (p2 + 1) with
                      | .error er => .error er
                      | .ok (.stmts alt, p3) =>
                          parseA toks fuel
                            (.exprLoop prec
                              (.ifExpr cond (.blockStmt cons) (some (.blockStmt alt)))) p3
                      | .ok _ => .error .fuelOut
                    else
                      parseA toks fuel (.exprLoop prec (.ifExpr cond (.blockStmt cons) none)) p2
                | .ok _ => .error .fuelOut
            | .ok _ => .error .fuelOut
        | .FN =>
            -- parse_function_literal
            match parseA toks fuel .params (pos + 1) with
            | .error e => .error e
            | .ok (.names ps, p1) =>
                match parseA toks fuel .block p1 with
                | .error er => .error er
                | .ok (.stmts body, p2) =>
                    parseA toks fuel (.exprLoop prec (.functionLit ps (.blockStmt body) none)) p2
                | .ok _ => .error .fuelOut
            | .ok _ => .error .fuelOut
        | _ => .error (.err "No prefix parser for token" t)
    | .exprLoop prec left =>
        -- the `while precedence < self.current_precedence()` loop
        let t := curTok toks pos
        if prec < precedenceOf t.type then
          if hasInfixFn t.type then
            match t.type with
            | .LPAREN =>
                -- parse_call_expression
                match parseA toks fuel (.exprList .RPAREN) (pos + 1) with
                | .error e => .error e
                | .ok (.exprs args, p1) =>
                    parseA toks fuel (.exprLoop prec (.callExpr left args)) p1
                | .ok _ => .error .fuelOut
            | .LBRACKET =>
                -- parse_index_expression
                match parseA toks fuel (.expression precLOWEST) (pos + 1) with
                | .error e => .error e
                | .ok (.expr idx, p1) =>
                    match expectTok toks p1 .RBRACKET with
                    | .error er => .error er
                    | .ok (_, p2) => parseA toks fuel (.exprLoop prec (.indexExpr left idx)) p2
                | .ok _ => .error .fuelOut
            | _ =>
                -- parse_infix_expression; POWER recurses one level lower
                let opPrec := precedenceOf t.type
                let opPrec := if t.type = .POWER then opPrec - 1 else opPrec
                match parseA toks fuel (.expression opPrec) (pos + 1) with
                | .error e => .error e
                | .ok (.expr right, p1) =>
                    parseA toks fuel (.exprLoop prec (.binaryOp t.literal left right)) p1
                | .ok _ => .error .fuelOut
          else .ok (.expr left, pos)
        else .ok (.expr left, pos)
    | .exprList endTok =>
        -- parse_expression_list: empty, or first element then comma loop
        if (curTok toks pos).type = endTok then
          match expectTok toks pos endTok with
          | .error e => .error e
          | .ok (_, p1) => .ok (.exprs [], p1)
        else
          match parseA toks fuel (.expression precLOWEST) pos with
          | .error e => .error e
          | .ok (.expr e, p1) => parseA toks fuel (.exprListLoop endTok [e]) p1
          | .ok _ => .error .fuelOut
    | .exprListLoop endTok acc =>
        if (curTok toks pos).type = .COMMA then
          if (curTok toks (pos + 1)).type = endTok then
            match expectTok toks (pos + 1) endTok with
            | .error e => .error e
            | .ok (_, p1) => .ok (.exprs acc.reverse, p1)
          else
            match parseA toks fuel (.expression precLOWEST) (pos + 1) with
            | .error e => .error e
            | .ok (.expr e, p1) => parseA toks fuel (.exprListLoop endTok (e :: acc)) p1
            | .ok _ => .error .fuelOut
        else
          match expectTok toks pos endTok with
          | .error e => .error e
          | .ok (_, p1) => .ok (.exprs acc.reverse, p1)
    | .dictPairsLoop acc =>
        -- the comma loop of parse_dict_or_block
        if (curTok toks pos).type = .COMMA then
          if (curTok toks (pos + 1)).type = .RBRACE then
            match expectTok toks (pos + 1) .RBRACE with
            | .error e => .error e
            | .ok (_, p1) => .ok (.pairs acc.reverse, p1)
          else
            match parseA toks fuel (.expression precLOWEST) (pos + 1) with
            | .error e => .error e
            | .ok (.expr k, p1) =>
                match expectTok toks p1 .COLON with
                | .error er => .error er
                | .ok (_, p2) =>
                    match parseA toks fuel (.expression precLOWEST) p2 with
                    | .error er => .error er
                    | .ok (.expr v, p3) => parseA toks fuel (.dictPairsLoop ((k, v) :: acc)) p3
                    | .ok _ => .error .fuelOut
            | .ok _ => .error .fuelOut
        else
          match expectTok toks pos .RBRACE with
          | .error e => .error e
          | .ok (_, p1) => .ok (.pairs acc.reverse, p1)
    | .params =>
        -- parse_function_parameters: expect '(', names, expect ')'
        match expectTok toks pos .LPAREN with
        | .error e => .error e
        | .ok (_, p1) =>
            if (curTok toks p1).type ≠ .RPAREN then
              match expectTok toks p1 .IDENTIFIER with
              | .error e => .error e
              | .ok (nameTok, p2) => parseA toks fuel (.paramsLoop [nameTok.literal]) p2
            else
              match expectTok toks p1 .RPAREN with
              | .error e => .error e
              | .ok (_, p2) => .ok (.names [], p2)
    | .paramsLoop acc =>
        if (curTok toks pos).type = .COMMA then
          match expectTok toks (pos + 1) .IDENTIFIER with
          | .error e => .error e
          | .ok (nameTok, p1) => parseA toks fuel (.paramsLoop (nameTok.literal :: acc)) p1
        else
          match expectTok toks pos .RPAREN with
          | .error e => .error e
          | .ok (_, p1) => .ok (.names acc.reverse, p1)

/-- `Parser.parse_program` on a token list, with the given fuel. -/
def parseProgram (fuel : Nat) (toks : List Token) : Except ParseError (List Node) :=
  match parseA toks fuel (.program []) 0 with
  | .error e => .error e
  | .ok (.stmts ss, _) => .ok ss
  | .ok _ => .error .fuelOut

/-- Runtime values.  Python's runtime values are host values: `None`, `bool`,
`int`, `float`, `str`, `list`, `dict`, `BuiltinFunction` (identified by its
registry name) and the `Function` dataclass of `evaluator.py` (parameters,
body, closure environment id, optional name). -/
inductive Value where
  | vnull
  | vbool (b : Bool)
  | vint (n : Int)
  | vfloat (q : ℚ)
  | vstr (s : String)
  | varr (elems : List Value)
  | vdict (pairs : List (Value × Value))
  | vbuiltin (name : String)
  | vfunction (parameters : List String) (body : Node) (envId : Nat) (name : Option String)

/-- Evaluation-time failures.  `kira` is `KiraRuntimeError`; `host` is any
other host exception (`RuntimeError` from `Environment`, `TypeError` from
mixed-type operators, ...), which `run_source` reports as an Internal
Error; `unmodeled` marks behaviour outside this embedding (built-in
bodies, container mutation, string %-formatting, irrational powers);
`fuelOut` marks fuel exhaustion and corresponds to no Python behaviour. -/
inductive KErr where
  | kira (msg : String)
  | host (msg : String)
  | unmodeled (what : String)
  | fuelOut

/-- The outcome of evaluating a node: a normal value, one of the three
non-local exits (`ReturnValue`, `BreakSignal`, `ContinueSignal`), or an
error. -/
inductive Outcome where
  | val (v : Value)
  | ret (v : Value)
  | brk
  | cont
  | err (e : KErr)

/-- Python's `type(x).__name__` for the runtime value kinds. -/
def pyTypeName : Value → String
  | .vnull => "NoneType"
  | .vbool _ => "bool"
  | .vint _ => "int"
  | .vfloat _ => "float"
  | .vstr _ => "str"
  | .varr _ => "list"
  | .vdict _ => "dict"
  | .vbuiltin _ => "BuiltinFunction"
  | .vfunction _ _ _ _ => "Function"

/-- A Python number: an exact integer (`bool` or `int`) or a float. -/
inductive PyNum where
  | i (n : Int)
  | f (q : ℚ)

/-- The numeric view of a value: Python's `bool` is a subclass of `int`
(`True == 1`, `isinstance(True, int)`), so booleans participate in all
integer contexts. -/
def toNum? : Value → Option PyNum
  | .vbool b => some (.i (if b then 1 else 0))
  | .vint n => some (.i n)
  | .vfloat q => some (.f q)
  | _ => none

/-- The rational magnitude of a Python number. -/
def numQ : PyNum → ℚ
  | .i n => (n : ℚ)
  | .f q => q

/-- `isinstance(v, int)` (true for Python bools as well), with the integer
value; used by the index checks of `eval_IndexExpression`. -/
def asInt? : Value → Option Int
  | .vbool b => some (if b then 1 else 0)
  | .vint n => some n
  | _ => none

/-- Python `v == 0` for an arbitrary value: numeric values compare by
magnitude, everything else is not equal to `0`.  (`eval_BinaryOp` guards
`/` and `%` with this check.) -/
def eqZero (v : Value) : Bool :=
  match toNum? v with
  | some n => numQ n == 0
  | none => false

/-- `Evaluator.is_truthy`: `None` and `false` are falsy, numbers are falsy
iff zero, strings/arrays/dicts are falsy iff empty, everything else is
truthy. -/
def isTruthy : Value → Bool
  | .vnull => false
  | .vbool b => b
  | .vint n => n != 0
  | .vfloat q => q != 0
  | .vstr s => s.length > 0
  | .varr l => l.length > 0
  | .vdict d => d.length > 0
  | _ => true

/-- Work items for the structural-equality worker `pyEqA`: Python `==` on
values, and the dataclass equality of AST nodes that it needs for
`Function` values. -/
inductive EqTask where
  | vals (a b : Value)
  | valList (a b : List Value)
  | dictSub (a b : List (Value × Value))
  | dictFind (k v : Value) (b : List (Value × Value))
  | nodes (a b : Node)
  | nodeList (a b : List Node)
  | nodePairs (a b : List (Node × Node))

/-- Python `==` between runtime values (and, for `Function` values, the
generated dataclass `__eq__` of AST nodes), as one fuel-indexed worker.
`None` equals only `None`; numbers (including bools) compare by
mathematical value; strings by text; lists elementwise; dicts by key
lookup irrespective of order; `BuiltinFunction` values by identity (they
are singletons in the registry, so by name); `Function` dataclasses field
by field with environment identity (the id).  Cross-kind comparisons are
`False`.  The fuel only bounds the value depth: it is decremented once
per structural step, and exhaustion returns `false` (values reachable in
a fuel-bounded evaluation are shallower than the fuel). -/
def pyEqA : Nat → EqTask → Bool
  | 0, _ => false
  | fuel + 1, task =>
    match task with
    | .vals a b =>
        match a, b with
        | .vnull, .vnull => true
        | .vstr x, .vstr y => x == y
        | .varr x, .varr y => pyEqA fuel (.valList x y)
        | .vdict x, .vdict y => x.length == y.length && pyEqA fuel (.dictSub x y)
        | .vbuiltin x, .vbuiltin y => x == y
        | .vfunction p1 b1 e1 n1, .vfunction p2 b2 e2 n2 =>
            p1 == p2 && pyEqA fuel (.nodes b1 b2) && e1 == e2 && n1 == n2
        | x, y =>
            match toNum? x, toNum? y with
            | some m, some n => numQ m == numQ n
            | _, _ => false
    | .valList a b =>
        match a, b with
        | [], [] => true
        | x :: xs, y :: ys => pyEqA fuel (.vals x y) && pyEqA fuel (.valList xs ys)
        | _, _ => false
    | .dictSub a b =>
        match a with
        | [] => true
        | (k, v) :: rest => pyEqA fuel (.dictFind k v b) && pyEqA fuel (.dictSub rest b)
    | .dictFind k v b =>
        match b with
        | [] => false
        | (k2, v2) :: rest =>
            if pyEqA fuel (.vals k k2) then pyEqA fuel (.vals v v2)
            else pyEqA fuel (.dictFind k v rest)
    | .nodes a b =>
        match a, b with
        | .integerLit x, .integerLit y => x == y
        | .floatLit x, .floatLit y => x == y
        | .stringLit x, .stringLit y => x == y
        | .booleanLit x, .booleanLit y => x == y
        | .nullLit, .nullLit => true
        | .arrayLit x, .arrayLit y => pyEqA fuel (.nodeList x y)
        | .dictLit x, .dictLit y => pyEqA fuel (.nodePairs x y)
        | .identifier x, .identifier y => x == y
        | .indexExpr o1 i1, .indexExpr o2 i2 =>
            pyEqA fuel (.nodes o1 o2) && pyEqA fuel (.nodes i1 i2)
        | .binaryOp op1 l1 r1, .binaryOp op2 l2 r2 =>
            op1 == op2 && pyEqA fuel (.nodes l1 l2) && pyEqA fuel (.nodes r1 r2)
        | .unaryOp op1 e1, .unaryOp op2 e2 => op1 == op2 && pyEqA fuel (.nodes e1 e2)
        | .ifExpr c1 t1 a1, .ifExpr c2 t2 a2 =>
            pyEqA fuel (.nodes c1 c2) && pyEqA fuel (.nodes t1 t2) &&
              (match a1, a2 with
               | none, none => true
               | some x, some y => pyEqA fuel (.nodes x y)
               | _, _ => false)
        | .functionLit p1 b1 n1, .functionLit p2 b2 n2 =>
            p1 == p2 && pyEqA fuel (.nodes b1 b2) && n1 == n2
        | .callExpr f1 a1, .callExpr f2 a2 =>
            pyEqA fuel (.nodes f1 f2) && pyEqA fuel (.nodeList a1 a2)
        | .blockStmt x, .blockStmt y => pyEqA fuel (.nodeList x y)
        | .letStmt n1 v1, .letStmt n2 v2 => n1 == n2 && pyEqA fuel (.nodes v1 v2)
        | .constStmt n1 v1, .constStmt n2 v2 => n1 == n2 && pyEqA fuel (.nodes v1 v2)
        | .assignStmt n1 o1 v1, .assignStmt n2 o2 v2 =>
            n1 == n2 && o1 == o2 && pyEqA fuel (.nodes v1 v2)
        | .indexAssignStmt o1 i1 v1, .indexAssignStmt o2 i2 v2 =>
            pyEqA fuel (.nodes o1 o2) && pyEqA fuel (.nodes i1 i2) && pyEqA fuel (.nodes v1 v2)
        | .exprStmt x, .exprStmt y => pyEqA fuel (.nodes x y)
        | .returnStmt x, .returnStmt y =>
            (match x, y with
             | none, none => true
             | some a, some b => pyEqA fuel (.nodes a b)
             | _, _ => false)
        | .whileStmt c1 b1, .whileStmt c2 b2 =>
            pyEqA fuel (.nodes c1 c2) && pyEqA fuel (.nodes b1 b2)
        | .forStmt v1 i1 b1, .forStmt v2 i2 b2 =>
            v1 == v2 && pyEqA fuel (.nodes i1 i2) && pyEqA fuel (.nodes b1 b2)
        | .breakStmt, .breakStmt => true
        | .continueStmt, .continueStmt => true
        | .functionStmt n1 p1 b1, .functionStmt n2 p2 b2 =>
            n1 == n2 && p1 == p2 && pyEqA fuel (.nodes b1 b2)
        | _, _ => false
    | .nodeList a b =>
        match a, b with
        | [], [] => true
        | x :: xs, y :: ys => pyEqA fuel (.nodes x y) && pyEqA fuel (.nodeList xs ys)
        | _, _ => false
    | .nodePairs a b =>
        match a, b with
        | [], [] => true
        | (k1, v1) :: xs, (k2, v2) :: ys =>
            pyEqA fuel (.nodes k1 k2) && pyEqA fuel (.nodes v1 v2) && pyEqA fuel (.nodePairs xs ys)
        | _, _ => false

/-- Python `==` on two values, with explicit fuel (see `pyEqA`). -/
def pyEq (fuel : Nat) (a b : Value) : Bool :=
  pyEqA fuel (.vals a b)

/-- The four ordering operators of `eval_BinaryOp`. -/
inductive CmpOp where
  | lt | gt | le | ge
  deriving DecidableEq

/-- The source text of an ordering operator (for error messages). -/
def cmpOpStr : CmpOp → String
  | .lt => "<"
  | .gt => ">"
  | .le => "<="
  | .ge => ">="

/-- An ordering operator on rationals (Python's numeric comparisons). -/
def cmpQ : CmpOp → ℚ → ℚ → Bool
  | .lt, x, y => x < y
  | .gt, x, y => x > y
  | .le, x, y => x ≤ y
  | .ge, x, y => x ≥ y

/-- Lexicographic `<` on character lists by code point (Python's string
ordering). -/
def charsLt : List Char → List Char → Bool
  | [], [] => false
  | [], _ :: _ => true
  | _ :: _, [] => false
  | x :: xs, y :: ys => if x = y then charsLt xs ys else decide (x < y)

/-- An ordering operator on strings (Python compares lexicographically;
`≤` is the negation of the reversed `<` because the order is total). -/
def cmpStr (op : CmpOp) (x y : String) : Bool :=
  match op with
  | .lt => charsLt x.toList y.toList
  | .gt => charsLt y.toList x.toList
  | .le => !(charsLt y.toList x.toList)
  | .ge => !(charsLt x.toList y.toList)

/-- Work items for the ordering worker: a pair of values, or the tails of
two lists being compared elementwise. -/
inductive CmpTask where
  | vals (a b : Value)
  | lists (a b : List Value)

/-- Python `<`/`>`/`<=`/`>=` between runtime values: numbers (including
bools) by magnitude, strings lexicographically, lists elementwise (the
first non-`==` pair decides; exhaustion compares lengths).  Every other
combination — in particular any comparison involving `None`, or a number
against a string — raises a host `TypeError`, returned as `.error`. -/
def pyCmpA (op : CmpOp) : Nat → CmpTask → Except String Bool
  | 0, _ => .error "comparison fuel exhausted"
  | fuel + 1, task =>
    match task with
    | .vals a b =>
        match toNum? a, toNum? b with
        | some m, some n => .ok (cmpQ op (numQ m) (numQ n))
        | _, _ =>
            match a, b with
            | .vstr x, .vstr y => .ok (cmpStr op x y)
            | .varr x, .varr y => pyCmpA op fuel (.lists x y)
            | _, _ =>
                .error ("'" ++ cmpOpStr op ++ "' not supported between instances of '" ++
                  pyTypeName a ++ "' and '" ++ pyTypeName b ++ "'")
    | .lists a b =>
        match a, b with
        | [], [] => .ok (cmpQ op 0 0)
        | [], _ :: _ => .ok (cmpQ op 0 1)
        | _ :: _, [] => .ok (cmpQ op 1 0)
        | x :: xs, y :: ys =>
            if pyEqA fuel (.vals x y) then pyCmpA op fuel (.lists xs ys)
            else pyCmpA op fuel (.vals x y)

/-- Python `str()` of a float.  Exact only for integral floats; the
shortest-representation algorithm of host floats is not modelled (no claim
depends on printing a non-integral float). -/
def floatStr (q : ℚ) : String :=
  if q.den = 1 then toString q.num ++ ".0"
  else toString q.num ++ "/" ++ toString q.den

/-- Work items for `kira_str`/`kira_repr` of `builtins.py`: a value in
`str` form, or list elements / dict pairs in `repr` form joined by `", "`. -/
inductive StrTask where
  | strOf (v : Value)
  | reprList (l : List Value)
  | reprPairs (p : List (Value × Value))

/-- `kira_str` and `kira_repr` of `builtins.py` as one fuel-indexed worker:
`null`, `true`/`false`, bare strings, decimal integers, arrays and dicts
recursing with `repr` form (strings quoted) on their contents. -/
def kiraStrA : Nat → StrTask → String
  | 0, _ => ""
  | fuel + 1, task =>
    match task with
    | .strOf v =>
        match v with
        | .vnull => "null"
        | .vbool b => if b then "true" else "false"
        | .vint n => toString n
        | .vfloat q => floatStr q
        | .vstr s => s
        | .varr es => "[" ++ kiraStrA fuel (.reprList es) ++ "]"
        | .vdict ps => "\x7b" ++ kiraStrA fuel (.reprPairs ps) ++ "\x7d"
        | .vbuiltin n => "<builtin function " ++ n ++ ">"
        | .vfunction _ _ _ nm =>
            "<function " ++ (match nm with | some s => s | none => "anonymous") ++ ">"
    | .reprList l =>
        match l with
        | [] => ""
        | [v] =>
            (match v with
             | .vstr s => "\"" ++ s ++ "\""
             | _ => kiraStrA fuel (.strOf v))
        | v :: rest =>
            (match v with
             | .vstr s => "\"" ++ s ++ "\""
             | _ => kiraStrA fuel (.strOf v)) ++ ", " ++ kiraStrA fuel (.reprList rest)
    | .reprPairs p =>
        match p with
        | [] => ""
        | [(k, v)] =>
            (match k with
             | .vstr s => "\"" ++ s ++ "\""
             | _ => kiraStrA fuel (.strOf k)) ++ ": " ++
            (match v with
             | .vstr s => "\"" ++ s ++ "\""
             | _ => kiraStrA fuel (.strOf v))
        | (k, v) :: rest =>
            (match k with
             | .vstr s => "\"" ++ s ++ "\""
             | _ => kiraStrA fuel (.strOf k)) ++ ": " ++
            (match v with
             | .vstr s => "\"" ++ s ++ "\""
             | _ => kiraStrA fuel (.strOf v)) ++ ", " ++ kiraStrA fuel (.reprPairs rest)

/-- `kira_str` with explicit fuel. -/
def kiraStr (fuel : Nat) (v : Value) : String :=
  kiraStrA fuel (.strOf v)

/-- Python `+` on two numbers: `int + int` is an `int`, anything with a
float is a float. -/
def numAdd : PyNum → PyNum → Value
  | .i x, .i y => .vint (x + y)
  | m, n => .vfloat (numQ m + numQ n)

/-- Python `-` on two numbers. -/
def numSub : PyNum → PyNum → Value
  | .i x, .i y => .vint (x - y)
  | m, n => .vfloat (numQ m - numQ n)

/-- Python `*` on two numbers. -/
def numMul : PyNum → PyNum → Value
  | .i x, .i y => .vint (x * y)
  | m, n => .vfloat (numQ m * numQ n)

/-- The raw Python `left + right` (the final fallback of `eval_BinaryOp`'s
`+` branch, and the `current + value` of `+=`): numbers add, strings
concatenate with strings, lists concatenate with lists, and any other
combination raises a host `TypeError`. -/
def pyAdd (a b : Value) : Except KErr Value :=
  match a, b with
  | .vstr x, .vstr y => .ok (.vstr (x ++ y))
  | .varr x, .varr y => .ok (.varr (x ++ y))
  | _, _ =>
      match toNum? a, toNum? b with
      | some m, some n => .ok (numAdd m n)
      | _, _ =>
          .error (.host ("unsupported operand type(s) for +: '" ++ pyTypeName a ++
            "' and '" ++ pyTypeName b ++ "'"))

/-- The raw Python `left - right`: numeric only. -/
def pySub (a b : Value) : Except KErr Value :=
  match toNum? a, toNum? b with
  | some m, some n => .ok (numSub m n)
  | _, _ =>
      .error (.host ("unsupported operand type(s) for -: '" ++ pyTypeName a ++
        "' and '" ++ pyTypeName b ++ "'"))

/-- A string repeated `n` times (Python `s * n`; non-positive gives `""`). -/
def strRepeat (s : String) (n : Int) : String :=
  String.join (List.replicate n.toNat s)

/-- A list repeated `n` times (Python `l * n`; non-positive gives `[]`). -/
def listRepeat (l : List Value) (n : Int) : List Value :=
  (List.replicate n.toNat l).flatten

/-- The raw Python `left * right` (the final fallback of `eval_BinaryOp`'s
`*` branch): numbers multiply, a string or list with an int (either order)
repeats, anything else raises a host `TypeError`. -/
def pyMulRaw (a b : Value) : Except KErr Value :=
  match a, b with
  | .vstr s, _ =>
      match asInt? b with
      | some n => .ok (.vstr (strRepeat s n))
      | none => .error (.host ("cannot multiply sequence by non-int of type '" ++
          pyTypeName b ++ "'"))
  | _, .vstr s =>
      match asInt? a with
      | some n => .ok (.vstr (strRepeat s n))
      | none => .error (.host ("cannot multiply sequence by non-int of type '" ++
          pyTypeName a ++ "'"))
  | .varr l, _ =>
      match asInt? b with
      | some n => .ok (.varr (listRepeat l n))
      | none => .error (.host ("cannot multiply sequence by non-int of type '" ++
          pyTypeName b ++ "'"))
  | _, .varr l =>
      match asInt? a with
      | some n => .ok (.varr (listRepeat l n))
      | none => .error (.host ("cannot multiply sequence by non-int of type '" ++
          pyTypeName a ++ "'"))
  | _, _ =>
      match toNum? a, toNum? b with
      | some m, some n => .ok (numMul m n)
      | _, _ =>
          .error (.host ("unsupported operand type(s) for *: '" ++ pyTypeName a ++
            "' and '" ++ pyTypeName b ++ "'"))

/-- Python true division `left / right` (the zero check happens before the
call, in `eval_BinaryOp`): always a float. -/
def pyDiv (a b : Value) : Except KErr Value :=
  match toNum? a, toNum? b with
  | some m, some n => .ok (.vfloat (numQ m / numQ n))
  | _, _ =>
      .error (.host ("unsupported operand type(s) for /: '" ++ pyTypeName a ++
        "' and '" ++ pyTypeName b ++ "'"))

/-- Python `left % right` (zero checked before the call): floored modulo
(result takes the divisor's sign); `int % int` is an int.  A string left
operand is Python %-formatting, which is not modelled (no claim uses
`%` on strings). -/
def pyMod (a b : Value) : Except KErr Value :=
  match a with
  | .vstr _ => .error (.unmodeled "string %-formatting")
  | _ =>
      match toNum? a, toNum? b with
      | some (.i x), some (.i y) => .ok (.vint (Int.fmod x y))
      | some m, some n =>
          .ok (.vfloat (numQ m - numQ n * (⌊numQ m / numQ n⌋ : ℤ)))
      | _, _ =>
          .error (.host ("unsupported operand type(s) for %: '" ++ pyTypeName a ++
            "' and '" ++ pyTypeName b ++ "'"))

/-- Python `left ** right`: `int ** int` with a non-negative exponent is
an int; a negative int exponent gives a float (`0` raises
`ZeroDivisionError`, a host error); a float anywhere gives a float when
the exponent is integral.  Non-integral exponents produce irrational (or
complex) host floats and are not modelled (no claim uses them). -/
def pyPow (a b : Value) : Except KErr Value :=
  match toNum? a, toNum? b with
  | some (.i x), some (.i y) =>
      if 0 ≤ y then .ok (.vint (x ^ y.toNat))
      else if x = 0 then .error (.host "0 cannot be raised to a negative power")
      else .ok (.vfloat ((x : ℚ) ^ y))
  | some m, some (.i y) =>
      if numQ m = 0 ∧ y < 0 then .error (.host "0 cannot be raised to a negative power")
      else .ok (.vfloat (numQ m ^ y))
  | some m, some (.f qe) =>
      if qe.den = 1 then
        if numQ m = 0 ∧ qe.num < 0 then .error (.host "0 cannot be raised to a negative power")
        else .ok (.vfloat (numQ m ^ qe.num))
      else .error (.unmodeled "non-integral float exponent")
  | _, _ =>
      .error (.host ("unsupported operand type(s) for **: '" ++ pyTypeName a ++
        "' and '" ++ pyTypeName b ++ "'"))

/-- Python unary `-` (`eval_UnaryOp`): numeric negation. -/
def pyNeg (v : Value) : Except KErr Value :=
  match toNum? v with
  | some (.i n) => .ok (.vint (-n))
  | some (.f q) => .ok (.vfloat (-q))
  | none => .error (.host ("bad operand type for unary -: '" ++ pyTypeName v ++ "'"))

/-- Python hashability of the value kinds: containers and the `Function` /
`BuiltinFunction` dataclasses (whose generated `__eq__` sets `__hash__`
to `None`) cannot be dict keys. -/
def hashable : Value → Bool
  | .vnull | .vbool _ | .vint _ | .vfloat _ | .vstr _ => true
  | _ => false

/-- Key lookup in a dict's insertion-ordered pair list, by Python `==`. -/
def dictFind? (fuel : Nat) (k : Value) : List (Value × Value) → Option Value
  | [] => none
  | (k2, v2) :: rest => if pyEq fuel k k2 then some v2 else dictFind? fuel k rest

/-- Insert-or-overwrite into a dict's pair list: an existing key keeps its
position and original key object (Python dict semantics); a new key is
appended. -/
def dictInsert (fuel : Nat) (d : List (Value × Value)) (k v : Value) :
    List (Value × Value) :=
  match d with
  | [] => [(k, v)]
  | (k2, v2) :: rest =>
      if pyEq fuel k k2 then (k2, v) :: rest
      else (k2, v2) :: dictInsert fuel rest k v

/-- `Evaluator.eval_IndexExpression` minus the two surrounding `eval`
calls: arrays index by `isinstance(_, int)` integers (so bools index too)
in `[0, len)`, dicts by key lookup, strings like arrays but yielding a
one-character string; anything else is a type error. -/
def evalIndex (fuel : Nat) (obj idx : Value) : Except KErr Value :=
  match obj with
  | .varr l =>
      match asInt? idx with
      | none => .error (.kira "Array index must be integer")
      | some n =>
          if n < 0 ∨ (l.length : Int) ≤ n then
            .error (.kira ("Array index out of bounds: " ++ toString n))
          else
            match l.get? n.toNat with
            | some v => .ok v
            | none => .error (.kira ("Array index out of bounds: " ++ toString n))
  | .vdict d =>
      if hashable idx then
        match dictFind? fuel idx d with
        | some v => .ok v
        | none => .error (.kira ("Key not found: " ++ kiraStr fuel idx))
      else .error (.host ("unhashable type: '" ++ pyTypeName idx ++ "'"))
  | .vstr s =>
      match asInt? idx with
      | none => .error (.kira "String index must be integer")
      | some n =>
          if n < 0 ∨ (s.length : Int) ≤ n then
            .error (.kira ("String index out of bounds: " ++ toString n))
          else
            match s.toList.get? n.toNat with
            | some c => .ok (.vstr (String.mk [c]))
            | none => .error (.kira ("String index out of bounds: " ++ toString n))
  | _ => .error (.kira ("Cannot index into " ++ pyTypeName obj))

/-- `Evaluator.eval_BinaryOp` minus short-circuiting and the two operand
`eval` calls.  `+` coerces to strings when either side is a string and
concatenates arrays; `*` repeats strings and arrays by ints; `/` and `%`
check `right == 0` first (a `KiraRuntimeError`) and divide as floats / by
floored modulo; `**` follows Python's int/float power; `==`/`!=` are
structural; the orderings delegate to `pyCmpA` (host `TypeError` for
unspecified mixtures); an unknown operator is a `KiraRuntimeError`. -/
def evalBinary (fuel : Nat) (op : String) (l r : Value) : Except KErr Value :=
  if op = "+" then
    match l, r with
    | .vstr _, _ => .ok (.vstr (kiraStr fuel l ++ kiraStr fuel r))
    | _, .vstr _ => .ok (.vstr (kiraStr fuel l ++ kiraStr fuel r))
    | _, _ => pyAdd l r
  else if op = "-" then pySub l r
  else if op = "*" then
    match l with
    | .vstr s =>
        (match asInt? r with
         | some n => .ok (.vstr (strRepeat s n))
         | none => pyMulRaw l r)
    | .varr a =>
        (match asInt? r with
         | some n => .ok (.varr (listRepeat a n))
         | none => pyMulRaw l r)
    | _ => pyMulRaw l r
  else if op = "/" then
    if eqZero r then .error (.kira "Division by zero") else pyDiv l r
  else if op = "%" then
    if eqZero r then .error (.kira "Modulo by zero") else pyMod l r
  else if op = "**" then pyPow l r
  else if op = "==" then .ok (.vbool (pyEq fuel l r))
  else if op = "!=" then .ok (.vbool (!pyEq fuel l r))
  else if op = "<" then
    match pyCmpA .lt fuel (.vals l r) with
    | .ok b => .ok (.vbool b)
    | .error m => .error (.host m)
  else if op = ">" then
    match pyCmpA .gt fuel (.vals l r) with
    | .ok b => .ok (.vbool b)
    | .error m => .error (.host m)
  else if op = "<=" then
    match pyCmpA .le fuel (.vals l r) with
    | .ok b => .ok (.vbool b)
    | .error m => .error (.host m)
  else if op = ">=" then
    match pyCmpA .ge fuel (.vals l r) with
    | .ok b => .ok (.vbool b)
    | .error m => .error (.host m)
  else .error (.kira ("Unknown operator: " ++ op))

/-- One environment (`Environment` of `environment.py`): an
insertion-ordered store, the set of names marked constant, and the parent
environment's id. -/
structure EnvData where
  store : List (String × Value)
  constants : List String
  parent : Option Nat

/-- The heap of environments; `envs[i]` is the environment with id `i`.
Environments are shared (closures) and mutated in place, so they live
here rather than inside values. -/
structure EvalSt where
  envs : List EnvData

/-- Lookup in one environment's store. -/
def storeGet? (store : List (String × Value)) (name : String) : Option Value :=
  match store with
  | [] => none
  | (n, v) :: rest => if n = name then some v else storeGet? rest name

/-- Overwrite-or-append in one environment's store (Python dict update:
an existing key keeps its position). -/
def storeSet (store : List (String × Value)) (name : String) (v : Value) :
    List (String × Value) :=
  match store with
  | [] => [(name, v)]
  | (n, v2) :: rest =>
      if n = name then (n, v) :: rest else (n, v2) :: storeSet rest name v

/-- `Environment.get`: search the local store, then the parent chain.  The
counter bounds the chain (parents are created before children, so the
number of environments suffices). -/
def envLookupGo (st : EvalSt) : Nat → Nat → String → Option Value
  | 0, _, _ => none
  | chain + 1, envId, name =>
      match st.envs.get? envId with
      | none => none
      | some e =>
          match storeGet? e.store name with
          | some v => some v
          | none =>
              match e.parent with
              | some p => envLookupGo st chain p name
              | none => none

/-- `Environment.get` from the environment with id `envId`. -/
def envLookup (st : EvalSt) (envId : Nat) (name : String) : Option Value :=
  envLookupGo st st.envs.length envId name

/-- `Environment.set`: bind in the current scope; a name marked constant
raises the built-in (host) `RuntimeError`. -/
def envSet (st : EvalSt) (envId : Nat) (name : String) (v : Value)
    (isConst : Bool) : Except KErr EvalSt :=
  match st.envs.get? envId with
  | none => .error (.host "invalid environment id")
  | some e =>
      if e.constants.contains name then
        .error (.host ("Cannot reassign constant '" ++ name ++ "'"))
      else
        let e' : EnvData :=
          ⟨storeSet e.store name v,
           if isConst then name :: e.constants else e.constants,
           e.parent⟩
        .ok ⟨st.envs.set envId e'⟩

/-- `Environment.assign`: update the nearest scope that already binds the
name; a constant binding or a completely unbound name raises the built-in
(host) `RuntimeError`. -/
def envAssignGo (st : EvalSt) : Nat → Nat → String → Value → Except KErr EvalSt
  | 0, _, _, _ => .error (.host "invalid environment id")
  | chain + 1, envId, name, v =>
      match st.envs.get? envId with
      | none => .error (.host "invalid environment id")
      | some e =>
          if (storeGet? e.store name).isSome then
            if e.constants.contains name then
              .error (.host ("Cannot reassign constant '" ++ name ++ "'"))
            else
              .ok ⟨st.envs.set envId ⟨storeSet e.store name v, e.constants, e.parent⟩⟩
          else
            match e.parent with
            | some p => envAssignGo st chain p name v
            | none => .error (.host ("Undefined variable: " ++ name))

/-- `Environment.assign` from the environment with id `envId`. -/
def envAssign (st : EvalSt) (envId : Nat) (name : String) (v : Value) :
    Except KErr EvalSt :=
  envAssignGo st st.envs.length envId name v

/-- The names of the `BUILTINS` registry of `builtins.py`.  Identifier
resolution falls back to this table; the built-ins' host bodies perform
I/O and container mutation and are not modelled (no claim calls one). -/
def BUILTINS : List String :=
  ["print", "println", "input", "len", "type", "str", "int", "float",
   "range", "push", "pop", "first", "last", "rest", "sorted", "reversed",
   "join", "keys", "values", "abs", "min", "max", "sum", "split", "upper",
   "lower", "strip", "replace", "contains"]

/-- `for v in e` iterates arrays in order, strings as one-character
strings, dicts over their keys in insertion order (`hasattr(x,
'__iter__')` holds exactly for `list`, `str`, `dict` among the value
kinds). -/
def iterItems : Value → Option (List Value)
  | .varr l => some l
  | .vstr s => some (s.toList.map (fun c => .vstr (String.mk [c])))
  | .vdict d => some (d.map (fun p => p.1))
  | _ => none

/-- The work items of the evaluator: `node` is `Evaluator.eval` on one AST
node; the rest are its internal loops (statement sequences with the value
of the last statement, left-to-right expression lists, dict pairs, the
`while`/`for` loop bodies) and `apply_function`. -/
inductive Task where
  | node (n : Node) (envId : Nat)
  | seq (stmts : List Node) (prev : Value) (envId : Nat)
  | exprs (es : List Node) (acc : List Value) (envId : Nat)
  | dpairs (ps : List (Node × Node)) (acc : List (Value × Value)) (envId : Nat)
  | whileLoop (cond body : Node) (envId : Nat)
  | forLoop (v : String) (items : List Value) (body : Node) (envId : Nat)
  | applyFn (func : Value) (args : List Value)

/-- The evaluator (`Evaluator` of `evaluator.py`) as one fuel-indexed
function.  An exception in Python is an `Outcome` other than `val` here,
and propagates through every rule that does not explicitly catch it:
`ret` is caught only by `apply_function`, `brk`/`cont` only by the two
loops.  The environment heap is threaded (also out of error outcomes,
matching in-place mutation). -/
def evalA : Nat → Task → EvalSt → Outcome × EvalSt
  | 0, _, st => (.err .fuelOut, st)
  | fuel + 1, task, st =>
    match task with
    | .node n envId =>
      match n with
      | .integerLit v => (.val (.vint v), st)
      | .floatLit v => (.val (.vfloat v), st)
      | .stringLit v => (.val (.vstr v), st)
      | .booleanLit v => (.val (.vbool v), st)
      | .nullLit => (.val .vnull, st)
      | .arrayLit es => evalA fuel (.exprs es [] envId) st
      | .dictLit ps => evalA fuel (.dpairs ps [] envId) st
      | .identifier name =>
          (match envLookup st envId name with
           | some v => (.val v, st)
           | none =>
               if BUILTINS.contains name then (.val (.vbuiltin name), st)
               else (.err (.kira ("Undefined variable: " ++ name)), st))
      | .indexExpr o i =>
          (match evalA fuel (.node o envId) st with
           | (.val ov, st1) =>
               (match evalA fuel (.node i envId) st1 with
                | (.val iv, st2) =>
                    (match evalIndex fuel ov iv with
                     | .ok v => (.val v, st2)
                     | .error e => (.err e, st2))
                | other => other)
           | other => other)
      | .binaryOp op l r =>
          if op = "and" then
            match evalA fuel (.node l envId) st with
            | (.val lv, st1) =>
                if !isTruthy lv then (.val lv, st1)
                else evalA fuel (.node r envId) st1
            | other => other
          else if op = "or" then
            match evalA fuel (.node l envId) st with
            | (.val lv, st1) =>
                if isTruthy lv then (.val lv, st1)
                else evalA fuel (.node r envId) st1
            | other => other
          else
            match evalA fuel (.node l envId) st with
            | (.val lv, st1) =>
                (match evalA fuel (.node r envId) st1 with
                 | (.val rv, st2) =>
                     (match evalBinary fuel op lv rv with
                      | .ok v => (.val v, st2)
                      | .error e => (.err e, st2))
                 | other => other)
            | other => other
      | .unaryOp op e =>
          (match evalA fuel (.node e envId) st with
           | (.val v, st1) =>
               if op = "-" then
                 (match pyNeg v with
                  | .ok v2 => (.val v2, st1)
                  | .error er => (.err er, st1))
               else if op = "not" then (.val (.vbool (!isTruthy v)), st1)
               else (.err (.kira ("Unknown unary operator: " ++ op)), st1)
           | other => other)
      | .ifExpr c cons alt =>
          (match evalA fuel (.node c envId) st with
           | (.val cv, st1) =>
               if isTruthy cv then evalA fuel (.node cons envId) st1
               else
                 (match alt with
                  | some a => evalA fuel (.node a envId) st1
                  | none => (.val .vnull, st1))
           | other => other)
      | .functionLit ps body nm => (.val (.vfunction ps body envId nm), st)
      | .callExpr f args =>
          (match evalA fuel (.node f envId) st with
           | (.val fv, st1) =>
               (match evalA fuel (.exprs args [] envId) st1 with
                | (.val (.varr avs), st2) => evalA fuel (.applyFn fv avs) st2
                | other => other)
           | other => other)
      | .blockStmt ss => evalA fuel (.seq ss .vnull envId) st
      | .letStmt name v =>
          (match evalA fuel (.node v envId) st with
           | (.val vv, st1) =>
               (match envSet st1 envId name vv false with
                | .ok st2 => (.val vv, st2)
                | .error e => (.err e, st1))
           | other => other)
      | .constStmt name v =>
          (match evalA fuel (.node v envId) st with
           | (.val vv, st1) =>
               (match envSet st1 envId name vv true with
                | .ok st2 => (.val vv, st2)
                | .error e => (.err e, st1))
           | other => other)
      | .assignStmt name op v =>
          (match evalA fuel (.node v envId) st with
           | (.val vv, st1) =>
               if op = "=" then
                 (match envAssign st1 envId name vv with
                  | .ok st2 => (.val vv, st2)
                  | .error e => (.err e, st1))
               else if op = "+=" then
                 (match envLookup st1 envId name with
                  | none => (.err (.kira ("Undefined variable: " ++ name)), st1)
                  | some cur =>
                      (match pyAdd cur vv with
                       | .error e => (.err e, st1)
                       | .ok s =>
                           (match envAssign st1 envId name s with
                            | .ok st2 => (.val vv, st2)
                            | .error e => (.err e, st1))))
               else if op = "-=" then
                 (match envLookup st1 envId name with
                  | none => (.err (.kira ("Undefined variable: " ++ name)), st1)
                  | some cur =>
                      (match pySub cur vv with
                       | .error e => (.err e, st1)
                       | .ok s =>
                           (match envAssign st1 envId name s with
                            | .ok st2 => (.val vv, st2)
                            | .error e => (.err e, st1))))
               else (.val vv, st1)
           | other => other)
      | .indexAssignStmt o i v =>
          -- object, index, value are evaluated in order; the write itself
          -- mutates the container object, which is outside this value
          -- model (no claim evaluates an index assignment)
          (match evalA fuel (.node o envId) st with
           | (.val ov, st1) =>
               (match evalA fuel (.node i envId) st1 with
                | (.val _, st2) =>
                    (match evalA fuel (.node v envId) st2 with
                     | (.val _, st3) =>
                         (match ov with
                          | .varr _ => (.err (.unmodeled "IndexAssignStatement"), st3)
                          | .vdict _ => (.err (.unmodeled "IndexAssignStatement"), st3)
                          | _ => (.err (.kira "Cannot index into this type"), st3))
                     | other => other)
                | other => other)
           | other => other)
      | .exprStmt e => evalA fuel (.node e envId) st
      | .returnStmt v =>
          (match v with
           | none => (.ret .vnull, st)
           | some e =>
               (match evalA fuel (.node e envId) st with
                | (.val vv, st1) => (.ret vv, st1)
                | other => other))
      | .whileStmt c b => evalA fuel (.whileLoop c b envId) st
      | .forStmt v iter b =>
          (match evalA fuel (.node iter envId) st with
           | (.val itv, st1) =>
               (match iterItems itv with
                | some items => evalA fuel (.forLoop v items b envId) st1
                | none => (.err (.kira ("Cannot iterate over " ++ pyTypeName itv)), st1))
           | other => other)
      | .breakStmt => (.brk, st)
      | .continueStmt => (.cont, st)
      | .functionStmt name ps body =>
          let fv := Value.vfunction ps body envId (some name)
          (match envSet st envId name fv false with
           | .ok st1 => (.val fv, st1)
           | .error e => (.err e, st))
    | .seq stmts prev envId =>
        match stmts with
        | [] => (.val prev, st)
        | s :: rest =>
            match evalA fuel (.node s envId) st with
            | (.val v, st1) => evalA fuel (.seq rest v envId) st1
            | other => other
    | .exprs es acc envId =>
        match es with
        | [] => (.val (.varr acc.reverse), st)
        | e :: rest =>
            match evalA fuel (.node e envId) st with
            | (.val v, st1) => evalA fuel (.exprs rest (v :: acc) envId) st1
            | other => other
    | .dpairs ps acc envId =>
        match ps with
        | [] => (.val (.vdict acc), st)
        | (k, v) :: rest =>
            match evalA fuel (.node k envId) st with
            | (.val kv, st1) =>
                (match evalA fuel (.node v envId) st1 with
                 | (.val vv, st2) =>
                     if hashable kv then
                       evalA fuel (.dpairs rest (dictInsert fuel acc kv vv) envId) st2
                     else (.err (.host ("unhashable type: '" ++ pyTypeName kv ++ "'")), st2)
                 | other => other)
            | other => other
    | .whileLoop c b envId =>
        match evalA fuel (.node c envId) st with
        | (.val cv, st1) =>
            if isTruthy cv then
              match evalA fuel (.node b envId) st1 with
              | (.val _, st2) => evalA fuel (.whileLoop c b envId) st2
              | (.brk, st2) => (.val .vnull, st2)
              | (.cont, st2) => evalA fuel (.whileLoop c b envId) st2
              | other => other
            else (.val .vnull, st1)
        | other => other
    | .forLoop v items b envId =>
        match items with
        | [] => (.val .vnull, st)
        | item :: rest =>
            match envSet st envId v item false with
            | .error e => (.err e, st)
            | .ok st1 =>
                match evalA fuel (.node b envId) st1 with
                | (.val _, st2) => evalA fuel (.forLoop v rest b envId) st2
                | (.brk, st2) => (.val .vnull, st2)
                | (.cont, st2) => evalA fuel (.forLoop v rest b envId) st2
                | other => other
    | .applyFn func args =>
        match func with
        | .vbuiltin name => (.err (.unmodeled ("builtin call: " ++ name)), st)
        | .vfunction ps body fEnv _ =>
            if args.length ≠ ps.length then
              (.err (.kira ("Expected " ++ toString ps.length ++ " arguments, got " ++
                toString args.length)), st)
            else
              let newId := st.envs.length
              let store := (ps.zip args).foldl (fun s pa => storeSet s pa.1 pa.2) []
              let st1 : EvalSt := ⟨st.envs ++ [⟨store, [], some fEnv⟩]⟩
              match evalA fuel (.node body newId) st1 with
              | (.val v, st2) => (.val v, st2)
              | (.ret v, st2) => (.val v, st2)
              | other => other
        | _ => (.err (.kira ("Cannot call " ++ pyTypeName func)), st)

/-- The root state: one empty environment with id `0` (built-ins are
resolved through the fallback table, not stored). -/
def initState : EvalSt := ⟨[⟨[], [], none⟩]⟩

/-- `Evaluator.eval` on a `Program` (statement list) in a fresh root
environment: the value of the last statement (`None` for an empty
program). -/
def evalProgram (fuel : Nat) (prog : List Node) : Outcome × EvalSt :=
  evalA fuel (.seq prog .vnull 0) initState

/-- What `run_source` of `kira.py` reports for one run. -/
inductive RunReport where
  | success
  | lexerError
  | parseError
  | runtimeError
  | internalError
  | outOfFuel
  | unmodeledStop
  deriving DecidableEq

/-- The exception handling of `run_source`: a `KiraRuntimeError` prints
`Runtime Error`; *any* other exception — including an escaped
`ReturnValue`, `BreakSignal` or `ContinueSignal`, and every host
exception — is caught by the final `except Exception` and prints
`Internal Error`. -/
def classifyOutcome : Outcome → RunReport
  | .val _ => .success
  | .ret _ => .internalError
  | .brk => .internalError
  | .cont => .internalError
  | .err (.kira _) => .runtimeError
  | .err (.host _) => .internalError
  | .err (.unmodeled _) => .unmodeledStop
  | .err .fuelOut => .outOfFuel

/-- `run_source` of `kira.py`: tokenize, parse, evaluate, and classify
(the same fuel is used for the parser and the evaluator). -/
def runSource (fuel : Nat) (src : String) : RunReport :=
  match tokenize src.toList with
  | .error _ => .lexerError
  | .ok toks =>
      match parseProgram fuel toks with
      | .error _ => .parseError
      | .ok prog => classifyOutcome (evalProgram fuel prog).1

/-- Tokenize, parse and evaluate; `none` when the lexer or parser fails. -/
def progResult (fuel : Nat) (src : String) : Option (Outcome × EvalSt) :=
  match tokenize src.toList with
  | .error _ => none
  | .ok toks =>
      match parseProgram fuel toks with
      | .error _ => none
      | .ok prog => some (evalProgram fuel prog)

/-- The outcome of a full pipeline run. -/
def progOutcome (fuel : Nat) (src : String) : Option Outcome :=
  (progResult fuel src).map (fun r => r.1)

/-- Evaluation only grows the environment heap: no environment is ever
removed, a parent link is never rewritten after creation, and no binding
is ever deleted from a store (bindings are only added or updated).  This
is the heap-shape invariant behind lexical scoping: blocks share their
enclosing environment, so anything bound inside one stays bound after. -/
def StGrow (st st' : EvalSt) : Prop :=
  st.envs.length ≤ st'.envs.length ∧
  ∀ i e, st.envs.get? i = some e →
    ∃ e', st'.envs.get? i = some e' ∧ e'.parent = e.parent ∧
      ∀ n, (storeGet? e.store n).isSome → (storeGet? e'.store n).isSome

/-- C1.  The claim states that a top-level `return`, `break` or `continue`
is reported as a RuntimeError.  It is not: `ReturnValue`, `BreakSignal`
and `ContinueSignal` are plain `Exception` subclasses and none of them is
a `KiraRuntimeError`, so when one escapes `Evaluator.eval` it falls
through to the final `except Exception` of `run_source`, which prints
`Internal Error`.  Concretely, the program `return 5` is reported as an
Internal Error, not a Runtime Error. -/
theorem C1_counterexample :
    runSource 100 "return 5" = RunReport.internalError ∧
    runSource 100 "return 5" ≠ RunReport.runtimeError := by
  refine ⟨rfl, ?_⟩
  decide

/-- C1 (amended).  A `return` outside any function, or `break`/`continue`
outside any loop, escapes the evaluator as an uncaught non-local exit,
and `run_source` reports every program whose evaluation ends in such an
escaped exit as an Internal Error (the catch-all `except Exception`
branch), not as a RuntimeError. -/
theorem C1_escape (fuel : Nat) (src : String) (toks : List Token)
    (prog : List Node)
    (h1 : tokenize src.toList = .ok toks)
    (h2 : parseProgram fuel toks = .ok prog)
    (h3 : (∃ v, (evalProgram fuel prog).1 = Outcome.ret v) ∨
      (evalProgram fuel prog).1 = Outcome.brk ∨
      (evalProgram fuel prog).1 = Outcome.cont) :
    runSource fuel src = RunReport.internalError := by
  simp only [runSource, h1, h2]
  rcases h3 with ⟨v, hv⟩ | hb | hc
  · rw [hv]; rfl
  · rw [hb]; rfl
  · rw [hc]; rfl

/-- C1 witness: the program `break` is reported as an Internal Error. -/
theorem C1_escape_witness : runSource 100 "break" = RunReport.internalError :=
  C1_escape 100 "break" _ _ rfl rfl (Or.inr (Or.inl rfl))

/-- C2.  The claim states that let/const/assignment statements yield
`null`, and that `if true { let x = 5 }` evaluates to `null`.  They do
not: `eval_LetStatement` (and the const/assign evaluators) end with
`return value`, so that block evaluates to `5`. -/
theorem C2_counterexample :
    progOutcome 100 "if true { let x = 5 }" = some (Outcome.val (Value.vint 5)) ∧
    (Outcome.val (Value.vint 5) : Outcome) ≠ Outcome.val Value.vnull := by
  refine ⟨rfl, ?_⟩
  simp

/-- C5.  The parser implements the precedence table with `**`
right-associative and unary operators binding tighter than `or`:
`1 + 2 * 3 ** 2` evaluates to `19`, `2 ** 3 ** 2` to `512`, and
`not true or true` to `true`. -/
theorem C5_precedence :
    progOutcome 1000 "1 + 2 * 3 ** 2" = some (Outcome.val (Value.vint 19)) ∧
    progOutcome 1000 "2 ** 3 ** 2" = some (Outcome.val (Value.vint 512)) ∧
    progOutcome 1000 "not true or true" = some (Outcome.val (Value.vbool true)) :=
  ⟨rfl, rfl, rfl⟩

/-- C7.  The claim states that unspecified mixed-type comparisons raise a
runtime error of the interpreter's taxonomy.  They do not: the comparison
branches of `eval_BinaryOp` apply the host operator directly, the host
raises `TypeError`, which is not a `KiraRuntimeError`, and `run_source`
reports it through its catch-all as an Internal Error.  Concretely
`1 < "a"` is reported as an Internal Error, not a Runtime Error. -/
theorem C7_counterexample :
    runSource 100 "1 < \"a\"" = RunReport.internalError ∧
    runSource 100 "1 < \"a\"" ≠ RunReport.runtimeError := by
  refine ⟨rfl, ?_⟩
  decide

/-- C10.  Booleans are accepted wherever an integer is required and
compare equal to their numeric value: `true == 1` and `false == 0` are
`true` (Python's `bool` is an `int` subclass, modelled by the numeric
view in `toNum?`), and indexing any array of length at least two with
`true`/`false` yields the element at position 1/0 (the
`isinstance(index, int)` check of `eval_IndexExpression` accepts bools,
modelled by `asInt?`). -/
theorem C10_bool_as_int :
    progOutcome 100 "true == 1" = some (Outcome.val (Value.vbool true)) ∧
    progOutcome 100 "false == 0" = some (Outcome.val (Value.vbool true)) ∧
    (∀ (fuel : Nat) (v0 v1 : Value) (rest : List Value),
      evalIndex fuel (.varr (v0 :: v1 :: rest)) (.vbool true) = .ok v1 ∧
      evalIndex fuel (.varr (v0 :: v1 :: rest)) (.vbool false) = .ok v0) ∧
    progOutcome 100 "[7, 8][true]" = some (Outcome.val (Value.vint 8)) ∧
    progOutcome 100 "[7, 8][false]" = some (Outcome.val (Value.vint 7)) := by
  refine ⟨rfl, rfl, ?_, rfl, rfl⟩
  intro fuel v0 v1 rest
  constructor
  · simp [evalIndex, asInt?]
  · simp [evalIndex, asInt?]
    omega

/-- C4.  `and` and `or` short-circuit and return the deciding operand
value without boolean coercion: when `a` evaluates to a falsy value `v`,
`a and b` yields `v` itself and `b` is never evaluated (the result is
independent of `b`), while `a or b` continues with exactly the
evaluation of `b`; dually when `v` is truthy. -/
theorem C4_short_circuit (fuel : Nat) (a b : Node) (envId : Nat)
    (st : EvalSt) (v : Value) (st1 : EvalSt)
    (h : evalA fuel (.node a envId) st = (Outcome.val v, st1)) :
    (isTruthy v = false →
      evalA (fuel + 1) (.node (.binaryOp "and" a b) envId) st = (Outcome.val v, st1) ∧
      evalA (fuel + 1) (.node (.binaryOp "or" a b) envId) st =
        evalA fuel (.node b envId) st1) ∧
    (isTruthy v = true →
      evalA (fuel + 1) (.node (.binaryOp "and" a b) envId) st =
        evalA fuel (.node b envId) st1 ∧
      evalA (fuel + 1) (.node (.binaryOp "or" a b) envId) st = (Outcome.val v, st1)) := by
  constructor
  · intro hv
    constructor
    · simp [evalA, h, hv]
    · simp [evalA, h, hv]
  · intro hv
    constructor
    · simp [evalA, h, hv]
    · simp [evalA, h, hv]

/-- C4 witness: `false and b` yields the value `false` without touching
`b` (here `b` is an unbound identifier whose evaluation would fail). -/
theorem C4_short_circuit_witness :
    evalA 2 (.node (.binaryOp "and" (.booleanLit false) (.identifier "boom")) 0)
      initState = (Outcome.val (Value.vbool false), initState) :=
  ((C4_short_circuit 1 (.booleanLit false) (.identifier "boom") 0 initState
    (Value.vbool false) initState rfl).1 rfl).1

/-- C6.  After `const k = 1`, a plain assignment through the binding
(`Environment.assign`) and a redeclaration in the same scope
(`Environment.set`, used by both `let` and `const`) raise the
`Cannot reassign constant` error, and concretely each of `k = 2`,
`k += 1`, `k -= 1`, `let k = 2` and `const k = 2` after `const k = 1`
fails with that error, leaving `k` bound to `1`. -/
theorem C6_const_immutable :
    (∀ (st : EvalSt) (chain envId : Nat) (name : String) (v : Value) (e : EnvData),
      st.envs.get? envId = some e →
      (storeGet? e.store name).isSome = true →
      e.constants.contains name = true →
      envAssignGo st (chain + 1) envId name v =
        .error (.host ("Cannot reassign constant '" ++ name ++ "'"))) ∧
    (∀ (st : EvalSt) (envId : Nat) (name : String) (v : Value) (c : Bool) (e : EnvData),
      st.envs.get? envId = some e →
      e.constants.contains name = true →
      envSet st envId name v c =
        .error (.host ("Cannot reassign constant '" ++ name ++ "'"))) ∧
    ((progResult 100 "const k = 1; k = 2").map
      (fun r => (r.1, envLookup r.2 0 "k")) =
      some (.err (.host "Cannot reassign constant 'k'"), some (.vint 1))) ∧
    ((progResult 100 "const k = 1; k += 1").map
      (fun r => (r.1, envLookup r.2 0 "k")) =
      some (.err (.host "Cannot reassign constant 'k'"), some (.vint 1))) ∧
    ((progResult 100 "const k = 1; k -= 1").map
      (fun r => (r.1, envLookup r.2 0 "k")) =
      some (.err (.host "Cannot reassign constant 'k'"), some (.vint 1))) ∧
    ((progResult 100 "const k = 1; let k = 2").map
      (fun r => (r.1, envLookup r.2 0 "k")) =
      some (.err (.host "Cannot reassign constant 'k'"), some (.vint 1))) ∧
    ((progResult 100 "const k = 1; const k = 2").map
      (fun r => (r.1, envLookup r.2 0 "k")) =
      some (.err (.host "Cannot reassign constant 'k'"), some (.vint 1))) := by
  refine ⟨?_, ?_, rfl, rfl, rfl, rfl, rfl⟩
  · intro st chain envId name v e h1 h2 h3
    simp only [envAssignGo, h1, h2, h3, if_true]
  · intro st envId name v c e h1 h2
    simp only [envSet, h1, h2, if_true]

/-- C6 witness: assigning to a constant binding in a one-environment heap
fails with the `Cannot reassign constant` error. -/
theorem C6_const_immutable_witness :
    envAssignGo ⟨[⟨[("k", Value.vint 1)], ["k"], none⟩]⟩ 1 0 "k" (Value.vint 2) =
      .error (.host ("Cannot reassign constant '" ++ "k" ++ "'")) :=
  C6_const_immutable.1 ⟨[⟨[("k", Value.vint 1)], ["k"], none⟩]⟩ 0 0 "k"
    (Value.vint 2) ⟨[("k", Value.vint 1)], ["k"], none⟩ rfl rfl rfl

/-- Helper: a `while` loop that runs to completion yields `None`
(`eval_WhileStatement` ends with `return None`; every other outcome of
its body is either converted to `None` by `break`, continued past, or
propagated as a non-`val` outcome). -/
theorem whileLoop_val_null (c b : Node) (envId : Nat) :
    ∀ (fuel : Nat) (st st' : EvalSt) (v : Value),
      evalA fuel (.whileLoop c b envId) st = (Outcome.val v, st') → v = Value.vnull := by
  intro fuel
  induction fuel with
  | zero => intro st st' v h; simp [evalA] at h
  | succ n ih =>
    intro st st' v h
    simp only [evalA] at h
    split at h
    · split at h
      · split at h
        · exact ih _ _ _ h
        · simp at h; exact h.1.symm
        · exact ih _ _ _ h
        · rename_i h1 h2 h3
          rw [h] at h1
          exact absurd rfl (h1 v st')
      · simp at h; exact h.1.symm
    · rename_i h1
      rw [h] at h1
      exact absurd rfl (h1 v st')

/-- Helper: a `for` loop that runs to completion yields `None`
(`eval_ForStatement` ends with `return None`). -/
theorem forLoop_val_null (vn : String) (b : Node) (envId : Nat) :
    ∀ (fuel : Nat) (items : List Value) (st st' : EvalSt) (v : Value),
      evalA fuel (.forLoop vn items b envId) st = (Outcome.val v, st') →
        v = Value.vnull := by
  intro fuel
  induction fuel with
  | zero => intro items st st' v h; simp [evalA] at h
  | succ n ih =>
    intro items st st' v h
    simp only [evalA] at h
    split at h
    · simp at h; exact h.1.symm
    · split at h
      · simp at h
      · split at h
        · exact ih _ _ _ _ h
        · simp at h; exact h.1.symm
        · exact ih _ _ _ _ h
        · rename_i h1 h2 h3
          rw [h] at h1
          exact absurd rfl (h1 v st')

/-- C2 (amended).  Loops do yield `null`, but declarations and
assignments do not: `eval_LetStatement`, `eval_ConstStatement` and
`eval_AssignStatement` all end with `return value`, where `value` is the
evaluated right-hand operand.  So a let/const statement and a plain `=`
assignment yield the value just assigned; a `+=`/`-=` assignment stores
`current + value` / `current - value` but still yields the bare
right-hand operand (`let k = 1; k += 5` assigns `6` to `k` and yields
`5`); a `while` or `for` statement that completes yields `null`; and a
block whose last evaluated statement is a declaration has that
declaration's value — concretely `if true { let x = 5 }` evaluates to
`5`. -/
theorem C2_statement_values :
    (∀ (fuel : Nat) (name : String) (e : Node) (envId : Nat) (st st1 st2 : EvalSt)
      (vv : Value),
      evalA fuel (.node e envId) st = (Outcome.val vv, st1) →
      envSet st1 envId name vv false = .ok st2 →
      evalA (fuel + 1) (.node (.letStmt name e) envId) st = (Outcome.val vv, st2)) ∧
    (∀ (fuel : Nat) (name : String) (e : Node) (envId : Nat) (st st1 st2 : EvalSt)
      (vv : Value),
      evalA fuel (.node e envId) st = (Outcome.val vv, st1) →
      envSet st1 envId name vv true = .ok st2 →
      evalA (fuel + 1) (.node (.constStmt name e) envId) st = (Outcome.val vv, st2)) ∧
    (∀ (fuel : Nat) (name : String) (e : Node) (envId : Nat) (st st1 st2 : EvalSt)
      (vv : Value),
      evalA fuel (.node e envId) st = (Outcome.val vv, st1) →
      envAssign st1 envId name vv = .ok st2 →
      evalA (fuel + 1) (.node (.assignStmt name "=" e) envId) st = (Outcome.val vv, st2)) ∧
    (∀ (fuel : Nat) (name : String) (e : Node) (envId : Nat) (st st1 st2 : EvalSt)
      (vv cur s : Value),
      evalA fuel (.node e envId) st = (Outcome.val vv, st1) →
      envLookup st1 envId name = some cur →
      pyAdd cur vv = .ok s →
      envAssign st1 envId name s = .ok st2 →
      evalA (fuel + 1) (.node (.assignStmt name "+=" e) envId) st = (Outcome.val vv, st2)) ∧
    (∀ (fuel : Nat) (name : String) (e : Node) (envId : Nat) (st st1 st2 : EvalSt)
      (vv cur s : Value),
      evalA fuel (.node e envId) st = (Outcome.val vv, st1) →
      envLookup st1 envId name = some cur →
      pySub cur vv = .ok s →
      envAssign st1 envId name s = .ok st2 →
      evalA (fuel + 1) (.node (.assignStmt name "-=" e) envId) st = (Outcome.val vv, st2)) ∧
    ((progResult 100 "let k = 1; k += 5").map
      (fun r => (r.1, envLookup r.2 0 "k")) =
      some (Outcome.val (Value.vint 5), some (Value.vint 6))) ∧
    ((progResult 100 "let k = 10; k -= 4").map
      (fun r => (r.1, envLookup r.2 0 "k")) =
      some (Outcome.val (Value.vint 4), some (Value.vint 6))) ∧
    (∀ (fuel : Nat) (c b : Node) (envId : Nat) (st st' : EvalSt) (v : Value),
      evalA (fuel + 1) (.node (.whileStmt c b) envId) st = (Outcome.val v, st') →
      v = Value.vnull) ∧
    (∀ (fuel : Nat) (vn : String) (iter b : Node) (envId : Nat) (st st' : EvalSt)
      (v : Value),
      evalA (fuel + 1) (.node (.forStmt vn iter b) envId) st = (Outcome.val v, st') →
      v = Value.vnull) ∧
    progOutcome 100 "if true { let x = 5 }" = some (Outcome.val (Value.vint 5)) := by
  refine ⟨?_, ?_, ?_, ?_, ?_, rfl, rfl, ?_, ?_, rfl⟩
  · intro fuel name e envId st st1 st2 vv h1 h2
    simp [evalA, h1, h2]
  · intro fuel name e envId st st1 st2 vv h1 h2
    simp [evalA, h1, h2]
  · intro fuel name e envId st st1 st2 vv h1 h2
    simp [evalA, h1, h2]
  · intro fuel name e envId st st1 st2 vv cur s h1 h2 h3 h4
    simp [evalA, h1, h2, h3, h4]
  · intro fuel name e envId st st1 st2 vv cur s h1 h2 h3 h4
    simp [evalA, h1, h2, h3, h4]
  · intro fuel c b envId st st' v h
    simp only [evalA] at h
    exact whileLoop_val_null c b envId fuel st st' v h
  · intro fuel vn iter b envId st st' v h
    simp only [evalA] at h
    split at h
    · split at h
      · exact forLoop_val_null vn b envId fuel _ _ st' v h
      · simp at h
    · rename_i h1
      rw [h] at h1
      exact absurd rfl (h1 v st')

/-- C2 witness: `let x = 7` in the empty root environment yields the
value `7` (not `null`) and binds `x`. -/
theorem C2_statement_values_witness :
    evalA 2 (.node (.letStmt "x" (.integerLit 7)) 0) initState =
      (Outcome.val (Value.vint 7), ⟨[⟨[("x", Value.vint 7)], [], none⟩]⟩) :=
  C2_statement_values.1 1 "x" (.integerLit 7) 0 initState initState
    ⟨[⟨[("x", Value.vint 7)], [], none⟩]⟩ (Value.vint 7) rfl rfl

/-- C7 (amended).  Unspecified mixed-kind comparisons do raise — but as a
host `TypeError`, not a `KiraRuntimeError`: an integer against a string,
or `None` on either side, makes `pyCmpA` fail for all four orderings,
`eval_BinaryOp` surfaces that as a host error, and `run_source`
classifies a host error as an Internal Error. -/
theorem C7_mixed_compare :
    (∀ (op : CmpOp) (fuel : Nat) (n : Int) (s : String),
      ∃ msg, pyCmpA op (fuel + 1) (.vals (.vint n) (.vstr s)) = .error msg) ∧
    (∀ (op : CmpOp) (fuel : Nat) (v : Value),
      (∃ msg, pyCmpA op (fuel + 1) (.vals .vnull v) = .error msg) ∧
      (∃ msg, pyCmpA op (fuel + 1) (.vals v .vnull) = .error msg)) ∧
    (∀ (fuel : Nat) (cop : CmpOp) (l r : Value) (m : String),
      pyCmpA cop fuel (.vals l r) = .error m →
      evalBinary fuel (cmpOpStr cop) l r = .error (.host m)) ∧
    (∀ m, classifyOutcome (.err (.host m)) = .internalError) := by
  refine ⟨?_, ?_, ?_, fun m => rfl⟩
  · intro op fuel n s
    exact ⟨_, rfl⟩
  · intro op fuel v
    constructor
    · cases v <;> exact ⟨_, rfl⟩
    · cases v <;> exact ⟨_, rfl⟩
  · intro fuel cop l r m h
    cases cop <;> simp [evalBinary, cmpOpStr, h]

/-- C7 witness: `1 < "a"` fails with the host `TypeError` message. -/
theorem C7_mixed_compare_witness :
    evalBinary 5 "<" (Value.vint 1) (Value.vstr "a") =
      .error (.host "'<' not supported between instances of 'int' and 'str'") :=
  C7_mixed_compare.2.2.1 5 .lt (Value.vint 1) (Value.vstr "a")
    "'<' not supported between instances of 'int' and 'str'" rfl

/-- Helper: `StGrow` is reflexive. -/
theorem stGrow_refl (st : EvalSt) : StGrow st st :=
  ⟨le_refl _, fun _ e h => ⟨e, h, rfl, fun _ hk => hk⟩⟩

/-- Helper: `StGrow` is transitive. -/
theorem stGrow_trans {a b c : EvalSt} (h1 : StGrow a b) (h2 : StGrow b c) :
    StGrow a c := by
  refine ⟨le_trans h1.1 h2.1, fun i e he => ?_⟩
  obtain ⟨e1, he1, hp1, hk1⟩ := h1.2 i e he
  obtain ⟨e2, he2, hp2, hk2⟩ := h2.2 i e1 he1
  exact ⟨e2, he2, hp2.trans hp1, fun n hk => hk2 n (hk1 n hk)⟩

/-- Helper: overwriting or adding a binding never removes one. -/
theorem storeSet_isSome (store : List (String × Value)) (name : String)
    (v : Value) (n : String) (h : (storeGet? store n).isSome = true) :
    (storeGet? (storeSet store name v) n).isSome = true := by
  induction store with
  | nil => simp [storeGet?] at h
  | cons p rest ih =>
    by_cases hn : p.1 = n
    · subst hn
      by_cases hm : p.1 = name
      · simp [storeSet, hm, storeGet?]
      · simp [storeSet, hm, storeGet?]
    · simp only [storeGet?, if_neg hn] at h
      by_cases hm : p.1 = name
      · have hnn : name ≠ n := by rw [← hm]; exact hn
        simp [storeSet, hm, storeGet?, hn, hnn, h]
      · simp only [storeSet, if_neg hm, storeGet?, if_neg hn]
        exact ih h

/-- Helper: `Environment.set` only adds or updates a binding in one
environment; heap shape is preserved. -/
theorem envSet_stGrow {st st' : EvalSt} {envId : Nat} {name : String}
    {v : Value} {c : Bool} (h : envSet st envId name v c = .ok st') :
    StGrow st st' := by
  unfold envSet at h
  split at h
  · exact absurd h (by simp)
  · rename_i e hg
    split at h
    · exact absurd h (by simp)
    · simp only [Except.ok.injEq] at h
      subst h
      constructor
      · simp
      · intro i e2 he2
        by_cases hi : i = envId
        · subst hi
          rw [hg] at he2
          cases he2
          refine ⟨_, List.get?_set_eq_of_lt _ (List.get?_eq_some.mp hg).1, rfl, ?_⟩
          intro n hk
          exact storeSet_isSome _ _ _ _ hk
        · refine ⟨e2, ?_, rfl, fun n hk => hk⟩
          show (st.envs.set envId _).get? i = some e2
          rw [List.get?_set_ne _ _ (Ne.symm hi)]
          exact he2

/-- Helper: `Environment.assign` only updates one binding somewhere along
the parent chain; heap shape is preserved. -/
theorem envAssignGo_stGrow {st st' : EvalSt} :
    ∀ {chain envId : Nat} {name : String} {v : Value},
      envAssignGo st chain envId name v = .ok st' → StGrow st st' := by
  intro chain
  induction chain with
  | zero => intro envId name v h; exact absurd h (by simp [envAssignGo])
  | succ m ih =>
    intro envId name v h
    unfold envAssignGo at h
    split at h
    · exact absurd h (by simp)
    · rename_i e hg
      split at h
      · split at h
        · exact absurd h (by simp)
        · simp only [Except.ok.injEq] at h
          subst h
          constructor
          · simp
          · intro i e2 he2
            by_cases hi : i = envId
            · subst hi
              rw [hg] at he2
              cases he2
              refine ⟨_, List.get?_set_eq_of_lt _ (List.get?_eq_some.mp hg).1, rfl, ?_⟩
              intro n hk
              exact storeSet_isSome _ _ _ _ hk
            · refine ⟨e2, ?_, rfl, fun n hk => hk⟩
              show (st.envs.set envId _).get? i = some e2
              rw [List.get?_set_ne _ _ (Ne.symm hi)]
              exact he2
      · split at h
        · exact ih h
        · exact absurd h (by simp)

/-- Helper: appending a fresh environment (a function-call frame)
preserves the heap shape. -/
theorem append_stGrow (st : EvalSt) (e : EnvData) :
    StGrow st ⟨st.envs ++ [e]⟩ := by
  constructor
  · simp
  · intro i e2 he2
    refine ⟨e2, ?_, rfl, fun n hk => hk⟩
    rw [List.get?_append (List.get?_eq_some.mp he2).1]
    exact he2

/-- Helper: `Environment.assign` through the chain preserves heap shape. -/
theorem envAssign_stGrow {st st' : EvalSt} {envId : Nat} {name : String}
    {v : Value} (h : envAssign st envId name v = .ok st') : StGrow st st' :=
  envAssignGo_stGrow h

/-- Helper: evaluation only grows the heap — environments are never
removed, parent links never change after creation, and bindings are never
deleted, whatever the outcome (this is the invariant behind C3 and C9). -/
theorem evalA_stGrow : ∀ (fuel : Nat) (task : Task) (st : EvalSt),
    StGrow st (evalA fuel task st).2 := by
  intro fuel
  induction fuel with
  | zero => intro task st; exact stGrow_refl st
  | succ n ih =>
    intro task st
    cases task with
    | node nd envId =>
      cases nd with
      | integerLit v => exact stGrow_refl st
      | floatLit v => exact stGrow_refl st
      | stringLit v => exact stGrow_refl st
      | booleanLit v => exact stGrow_refl st
      | nullLit => exact stGrow_refl st
      | arrayLit es => exact ih (.exprs es [] envId) st
      | dictLit ps => exact ih (.dpairs ps [] envId) st
      | identifier name =>
        simp only [evalA]
        split
        · exact stGrow_refl st
        · split <;> exact stGrow_refl st
      | indexExpr o i =>
        simp only [evalA]
        split
        · rename_i ov st1 heq1
          have g1 := ih (.node o envId) st
          rw [heq1] at g1
          split
          · rename_i iv st2 heq2
            have g2 := ih (.node i envId) st1
            rw [heq2] at g2
            split <;> exact stGrow_trans g1 g2
          · exact stGrow_trans g1 (ih (.node i envId) st1)
        · exact ih (.node o envId) st
      | binaryOp op l r =>
        simp only [evalA]
        split
        · -- op = "and"
          split
          · rename_i lv st1 heq1
            have g1 := ih (.node l envId) st
            rw [heq1] at g1
            split
            · exact g1
            · exact stGrow_trans g1 (ih (.node r envId) st1)
          · exact ih (.node l envId) st
        · split
          · -- op = "or"
            split
            · rename_i lv st1 heq1
              have g1 := ih (.node l envId) st
              rw [heq1] at g1
              split
              · exact g1
              · exact stGrow_trans g1 (ih (.node r envId) st1)
            · exact ih (.node l envId) st
          · -- other operators
            split
            · rename_i lv st1 heq1
              have g1 := ih (.node l envId) st
              rw [heq1] at g1
              split
              · rename_i rv st2 heq2
                have g2 := ih (.node r envId) st1
                rw [heq2] at g2
                split <;> exact stGrow_trans g1 g2
              · exact stGrow_trans g1 (ih (.node r envId) st1)
            · exact ih (.node l envId) st
      | unaryOp op e =>
        simp only [evalA]
        split
        · rename_i v st1 heq1
          have g1 := ih (.node e envId) st
          rw [heq1] at g1
          split
          · split <;> exact g1
          · split <;> exact g1
        · exact ih (.node e envId) st
      | ifExpr c cons alt =>
        simp only [evalA]
        split
        · rename_i cv st1 heq1
          have g1 := ih (.node c envId) st
          rw [heq1] at g1
          split
          · exact stGrow_trans g1 (ih (.node cons envId) st1)
          · split
            · exact stGrow_trans g1 (ih (.node _ envId) st1)
            · exact g1
        · exact ih (.node c envId) st
      | functionLit ps body nm => exact stGrow_refl st
      | callExpr f args =>
        simp only [evalA]
        split
        · rename_i fv st1 heq1
          have g1 := ih (.node f envId) st
          rw [heq1] at g1
          split
          · rename_i avs st2 heq2
            have g2 := ih (.exprs args [] envId) st1
            rw [heq2] at g2
            exact stGrow_trans g1 (stGrow_trans g2 (ih (.applyFn fv avs) st2))
          · exact stGrow_trans g1 (ih (.exprs args [] envId) st1)
        · exact ih (.node f envId) st
      | blockStmt ss => exact ih (.seq ss .vnull envId) st
      | letStmt name v =>
        simp only [evalA]
        split
        · rename_i vv st1 heq1
          have g1 := ih (.node v envId) st
          rw [heq1] at g1
          split
          · rename_i st2 heq2
            exact stGrow_trans g1 (envSet_stGrow heq2)
          · exact g1
        · exact ih (.node v envId) st
      | constStmt name v =>
        simp only [evalA]
        split
        · rename_i vv st1 heq1
          have g1 := ih (.node v envId) st
          rw [heq1] at g1
          split
          · rename_i st2 heq2
            exact stGrow_trans g1 (envSet_stGrow heq2)
          · exact g1
        · exact ih (.node v envId) st
      | assignStmt name op v =>
        simp only [evalA]
        split
        · rename_i vv st1 heq1
          have g1 := ih (.node v envId) st
          rw [heq1] at g1
          split
          · -- op = "="
            split
            · rename_i st2 heq2
              exact stGrow_trans g1 (envAssign_stGrow heq2)
            · exact g1
          · split
            · -- op = "+="
              split
              · exact g1
              · split
                · exact g1
                · split
                  · rename_i st2 heq2
                    exact stGrow_trans g1 (envAssign_stGrow heq2)
                  · exact g1
            · split
              · -- op = "-="
                split
                · exact g1
                · split
                  · exact g1
                  · split
                    · rename_i st2 heq2
                      exact stGrow_trans g1 (envAssign_stGrow heq2)
                    · exact g1
              · exact g1
        · exact ih (.node v envId) st
      | indexAssignStmt o i v =>
        simp only [evalA]
        split
        · rename_i ov st1 heq1
          have g1 := ih (.node o envId) st
          rw [heq1] at g1
          split
          · rename_i iv st2 heq2
            have g2 := ih (.node i envId) st1
            rw [heq2] at g2
            split
            · rename_i vv st3 heq3
              have g3 := ih (.node v envId) st2
              rw [heq3] at g3
              split <;> exact stGrow_trans g1 (stGrow_trans g2 g3)
            · exact stGrow_trans g1 (stGrow_trans g2 (ih (.node v envId) st2))
          · exact stGrow_trans g1 (ih (.node i envId) st1)
        · exact ih (.node o envId) st
      | exprStmt e => exact ih (.node e envId) st
      | returnStmt v =>
        simp only [evalA]
        split
        · exact stGrow_refl st
        · rename_i e
          split
          · rename_i vv st1 heq1
            have g1 := ih (.node e envId) st
            rw [heq1] at g1
            exact g1
          · exact ih (.node e envId) st
      | whileStmt c b => exact ih (.whileLoop c b envId) st
      | forStmt v iter b =>
        simp only [evalA]
        split
        · rename_i itv st1 heq1
          have g1 := ih (.node iter envId) st
          rw [heq1] at g1
          split
          · exact stGrow_trans g1 (ih (.forLoop _ _ _ envId) st1)
          · exact g1
        · exact ih (.node iter envId) st
      | breakStmt => exact stGrow_refl st
      | continueStmt => exact stGrow_refl st
      | functionStmt name ps body =>
        simp only [evalA]
        split
        · rename_i st1 heq1
          exact envSet_stGrow heq1
        · exact stGrow_refl st
    | seq stmts prev envId =>
      simp only [evalA]
      split
      · exact stGrow_refl st
      · rename_i s rest
        split
        · rename_i v st1 heq1
          have g1 := ih (.node s envId) st
          rw [heq1] at g1
          exact stGrow_trans g1 (ih (.seq rest v envId) st1)
        · exact ih (.node s envId) st
    | exprs es acc envId =>
      simp only [evalA]
      split
      · exact stGrow_refl st
      · rename_i e rest
        split
        · rename_i v st1 heq1
          have g1 := ih (.node e envId) st
          rw [heq1] at g1
          exact stGrow_trans g1 (ih (.exprs rest (v :: acc) envId) st1)
        · exact ih (.node e envId) st
    | dpairs ps acc envId =>
      simp only [evalA]
      split
      · exact stGrow_refl st
      · rename_i k v rest
        split
        · rename_i kv st1 heq1
          have g1 := ih (.node k envId) st
          rw [heq1] at g1
          split
          · rename_i vv st2 heq2
            have g2 := ih (.node v envId) st1
            rw [heq2] at g2
            split
            · exact stGrow_trans g1 (stGrow_trans g2
                (ih (.dpairs rest (dictInsert n acc kv vv) envId) st2))
            · exact stGrow_trans g1 g2
          · exact stGrow_trans g1 (ih (.node v envId) st1)
        · exact ih (.node k envId) st
    | whileLoop c b envId =>
      simp only [evalA]
      split
      · rename_i cv st1 heq1
        have g1 := ih (.node c envId) st
        rw [heq1] at g1
        split
        · split
          · rename_i bv st2 heq2
            have g2 := ih (.node b envId) st1
            rw [heq2] at g2
            exact stGrow_trans g1 (stGrow_trans g2 (ih (.whileLoop c b envId) st2))
          · rename_i st2 heq2
            have g2 := ih (.node b envId) st1
            rw [heq2] at g2
            exact stGrow_trans g1 g2
          · rename_i st2 heq2
            have g2 := ih (.node b envId) st1
            rw [heq2] at g2
            exact stGrow_trans g1 (stGrow_trans g2 (ih (.whileLoop c b envId) st2))
          · exact stGrow_trans g1 (ih (.node b envId) st1)
        · exact g1
      · exact ih (.node c envId) st
    | forLoop v items b envId =>
      simp only [evalA]
      split
      · exact stGrow_refl st
      · rename_i item rest
        split
        · exact stGrow_refl st
        · rename_i st1 heq1
          have g1 := envSet_stGrow heq1
          split
          · rename_i bv st2 heq2
            have g2 := ih (.node b envId) st1
            rw [heq2] at g2
            exact stGrow_trans g1 (stGrow_trans g2 (ih (.forLoop v rest b envId) st2))
          · rename_i st2 heq2
            have g2 := ih (.node b envId) st1
            rw [heq2] at g2
            exact stGrow_trans g1 g2
          · rename_i st2 heq2
            have g2 := ih (.node b envId) st1
            rw [heq2] at g2
            exact stGrow_trans g1 (stGrow_trans g2 (ih (.forLoop v rest b envId) st2))
          · exact stGrow_trans g1 (ih (.node b envId) st1)
    | applyFn func args =>
      simp only [evalA]
      split
      · exact stGrow_refl st
      · rename_i ps body fEnv nm
        split
        · exact stGrow_refl st
        · have ga := append_stGrow st
            ⟨(ps.zip args).foldl (fun s pa => storeSet s pa.1 pa.2) [], [], some fEnv⟩
          split
          · rename_i v2 st2 heq2
            have g2 := ih (.node body st.envs.length)
              ⟨st.envs ++ [⟨(ps.zip args).foldl (fun s pa => storeSet s pa.1 pa.2) [],
                [], some fEnv⟩]⟩
            rw [heq2] at g2
            exact stGrow_trans ga g2
          · rename_i v2 st2 heq2
            have g2 := ih (.node body st.envs.length)
              ⟨st.envs ++ [⟨(ps.zip args).foldl (fun s pa => storeSet s pa.1 pa.2) [],
                [], some fEnv⟩]⟩
            rw [heq2] at g2
            exact stGrow_trans ga g2
          · exact stGrow_trans ga (ih (.node body st.envs.length)
              ⟨st.envs ++ [⟨(ps.zip args).foldl (fun s pa => storeSet s pa.1 pa.2) [],
                [], some fEnv⟩]⟩)
      · exact stGrow_refl st

/-- C3.  `apply_function` creates a fresh child environment whose parent
is the function's captured definition-site environment, not the caller's:
for every call of a user function whose arity matches, the frame
allocated for the call has `parent = func.env`, and that parent link
survives the body's evaluation.  Concretely, the closure program of the
claim evaluates to `[11, 21]`, and redefining and then mutating a
top-level `x` between the calls changes nothing. -/
theorem C3_closure_env :
    (∀ (fuel : Nat) (ps : List String) (body : Node) (fEnv : Nat)
      (nm : Option String) (args : List Value) (st : EvalSt),
      args.length = ps.length →
      ∃ e, ((evalA (fuel + 1) (.applyFn (.vfunction ps body fEnv nm) args) st).2).envs.get?
          st.envs.length = some e ∧ e.parent = some fEnv) ∧
    progOutcome 1000
      "let mk = fn(x) { fn(y) { x + y } }; let f = mk(10); let g = mk(20); [f(1), g(1)]"
      = some (Outcome.val (Value.varr [Value.vint 11, Value.vint 21])) ∧
    progOutcome 1000
      "let mk = fn(x) { fn(y) { x + y } }; let f = mk(10); let x = 1000; let g = mk(20); x = 5; [f(1), g(1)]"
      = some (Outcome.val (Value.varr [Value.vint 11, Value.vint 21])) := by
  refine ⟨?_, rfl, rfl⟩
  intro fuel ps body fEnv nm args st harity
  have hnew : (⟨st.envs ++
      [⟨(ps.zip args).foldl (fun s pa => storeSet s pa.1 pa.2) [], [], some fEnv⟩]⟩ :
        EvalSt).envs.get? st.envs.length =
      some ⟨(ps.zip args).foldl (fun s pa => storeSet s pa.1 pa.2) [], [], some fEnv⟩ := by
    exact List.get?_concat_length _ _
  simp only [evalA, if_neg (by omega : ¬args.length ≠ ps.length)]
  split
  · rename_i v2 st2 heq2
    have g := evalA_stGrow fuel (.node body st.envs.length)
      ⟨st.envs ++ [⟨(ps.zip args).foldl (fun s pa => storeSet s pa.1 pa.2) [], [], some fEnv⟩]⟩
    rw [heq2] at g
    obtain ⟨e', he', hp', _⟩ := g.2 _ _ hnew
    exact ⟨e', he', hp'⟩
  · rename_i v2 st2 heq2
    have g := evalA_stGrow fuel (.node body st.envs.length)
      ⟨st.envs ++ [⟨(ps.zip args).foldl (fun s pa => storeSet s pa.1 pa.2) [], [], some fEnv⟩]⟩
    rw [heq2] at g
    obtain ⟨e', he', hp', _⟩ := g.2 _ _ hnew
    exact ⟨e', he', hp'⟩
  · have g := evalA_stGrow fuel (.node body st.envs.length)
      ⟨st.envs ++ [⟨(ps.zip args).foldl (fun s pa => storeSet s pa.1 pa.2) [], [], some fEnv⟩]⟩
    obtain ⟨e', he', hp', _⟩ := g.2 _ _ hnew
    exact ⟨e', he', hp'⟩

/-- C3 witness: calling `fn(x) { }`-style one-parameter function with one
argument allocates a frame whose parent is the captured environment 0. -/
theorem C3_closure_env_witness :
    ∃ e, ((evalA 5 (.applyFn (.vfunction ["x"] (.blockStmt []) 0 none)
        [Value.vint 1]) initState).2).envs.get? initState.envs.length = some e ∧
      e.parent = some 0 :=
  C3_closure_env.1 4 ["x"] (.blockStmt []) 0 none [Value.vint 1] initState rfl

/-- C9.  The claim also states that after every completed `for` loop the
loop variable holds the last iterated element; the body can reassign it,
so that is false: `for i in [1,2] { i = 0 }; i` evaluates to `0`, not to
the last element `2`. -/
theorem C9_counterexample :
    progOutcome 100 "for i in [1,2] { i = 0 }; i" = some (Outcome.val (Value.vint 0)) ∧
    (Outcome.val (Value.vint 0) : Outcome) ≠ Outcome.val (Value.vint 2) := by
  refine ⟨rfl, ?_⟩
  simp

/-- C9 (amended).  Blocks do not introduce environments: evaluation never
removes an environment, never rewrites a parent link, and never deletes a
binding (`StGrow`), so a `let` binding made inside an if/while/for block
stays bound in the enclosing environment after the block ends, and a
`for` loop's variable stays bound after the loop; when the body does not
reassign it, it still holds the last iterated element.  Concretely
`if true { let y = 7 }; y` evaluates to `7` and after
`for i in [1,2,3] { s = s + i }` the variable `i` is still `3`. -/
theorem C9_block_scoping :
    (∀ (fuel : Nat) (task : Task) (st : EvalSt), StGrow st (evalA fuel task st).2) ∧
    progOutcome 100 "if true { let y = 7 }; y" = some (Outcome.val (Value.vint 7)) ∧
    progOutcome 100 "let s = 0; for i in [1,2,3] { s = s + i }; [s, i]" =
      some (Outcome.val (Value.varr [Value.vint 6, Value.vint 3])) :=
  ⟨evalA_stGrow, rfl, rfl⟩

/-- C9 witness: the heap-growth component at a concrete evaluation. -/
theorem C9_block_scoping_witness :
    initState.envs.length ≤
      ((evalA 3 (.node (.letStmt "z" (.integerLit 1)) 0) initState).2).envs.length :=
  (C9_block_scoping.1 3 (.node (.letStmt "z" (.integerLit 1)) 0) initState).1

end Kira
